import Mathlib

/-!
# A shallow embedding of the yuuka accounting engine

This file models the core accounting engine of the `yuuka` repository:
the account directory (`src/yuuka/db/accounts.py`), the posting engine
(`src/yuuka/db/transactions.py`) and the reporting engine
(`src/yuuka/db/queries.py`), together with the data model of
`src/yuuka/models/`.  The SQLite tables are modelled as lists of rows held
in a `DB` record; SQL `SELECT ... WHERE` with `fetchone` becomes
`List.find?`, `DELETE`/`UPDATE ... WHERE` become `List.filter`/`List.map`,
`INSERT` appends a row, and `AUTOINCREMENT` ids come from a single fresh
counter.  Python `float` amounts are modelled as `Rat`; `datetime` values
are modelled as abstract `Nat` day stamps (only their ordering is used, by
the income-statement date filter).  Python `str.strip`/`str.lower` are
modelled on the ASCII fragment, which covers every string the engine
itself introduces.  `Optional[str]` becomes `Option String`, and Python
truthiness of an optional string (`None` and `""` are falsy) is the
function `optTruthy`.  Functions that `raise ValueError` are modelled in
`Except String`; the state argument is threaded explicitly, and an error
leaves the caller's state unchanged (SQLite transactions roll back).
-/

namespace Yuuka

/-! ## Python string primitives (ASCII fragment) -/

/-- Python whitespace test for the characters `str.strip` removes
(space, tab, newline, carriage return, vertical tab, form feed). -/
def isPySpace (c : Char) : Bool :=
  c == ' ' || c == '\t' || c == '\n' || c == '\r' ||
  c == '\x0b' || c == '\x0c'

/-- ASCII case folding of a single character, as done by Python
`str.lower` on the ASCII strings the engine manipulates. -/
def pyCharLower (c : Char) : Char :=
  if c = 'A' then 'a' else if c = 'B' then 'b' else if c = 'C' then 'c'
  else if c = 'D' then 'd' else if c = 'E' then 'e' else if c = 'F' then 'f'
  else if c = 'G' then 'g' else if c = 'H' then 'h' else if c = 'I' then 'i'
  else if c = 'J' then 'j' else if c = 'K' then 'k' else if c = 'L' then 'l'
  else if c = 'M' then 'm' else if c = 'N' then 'n' else if c = 'O' then 'o'
  else if c = 'P' then 'p' else if c = 'Q' then 'q' else if c = 'R' then 'r'
  else if c = 'S' then 's' else if c = 'T' then 't' else if c = 'U' then 'u'
  else if c = 'V' then 'v' else if c = 'W' then 'w' else if c = 'X' then 'x'
  else if c = 'Y' then 'y' else if c = 'Z' then 'z' else c

/-- Python `s.lower()`. -/
def pyLower (s : String) : String := ⟨s.data.map pyCharLower⟩

/-- The character list of `s.strip()`. -/
def stripChars (l : List Char) : List Char :=
  ((l.dropWhile isPySpace).reverse.dropWhile isPySpace).reverse

/-- Python `s.strip()`. -/
def pyStrip (s : String) : String := ⟨stripChars s.data⟩

/-- Python `s.strip().lower()`, the normalization used by the alias table. -/
def stripLower (s : String) : String := pyLower (pyStrip s)

/-- Python `s.lower().strip()`, the normalization used by
`infer_account_type`. -/
def lowerStrip (s : String) : String := pyStrip (pyLower s)

/-- Python substring test helper: does `needle` start `hay`? -/
def charListPrefixOf : List Char → List Char → Bool
  | [], _ => true
  | _ :: _, [] => false
  | a :: as, b :: bs => a == b && charListPrefixOf as bs

/-- Python substring test helper: does `needle` occur in `hay`? -/
def charListSub (needle : List Char) : List Char → Bool
  | [] => charListPrefixOf needle []
  | b :: bs => charListPrefixOf needle (b :: bs) || charListSub needle bs

/-- Python `needle in hay` on strings. -/
def strIn (needle hay : String) : Bool := charListSub needle.data hay.data

/-- Python truthiness of an `Optional[str]`: `None` and `""` are falsy. -/
def optTruthy : Option String → Bool
  | none => false
  | some s => !(s == "")

/-- Python `x or default` on an `Optional[str]`. -/
def pyOr (o : Option String) (d : String) : String :=
  match o with
  | none => d
  | some s => if s = "" then d else s

/-! ## Data model (`src/yuuka/models/account.py`, `transaction.py`) -/

/-- `AccountType` from `models/account.py`. -/
inductive AccountType where
  | asset | liability | equity | revenue | expense
deriving DecidableEq, Repr

/-- `EntryType` from `models/account.py`. -/
inductive EntryType where
  | debit | credit
deriving DecidableEq, Repr

/-- `TransactionAction` from `models/transaction.py`. -/
inductive TransactionAction where
  | incoming | outgoing | transfer
deriving DecidableEq, Repr

/-- `ParsedTransaction` from `models/transaction.py`.  Amounts are `Rat`;
`confidence` is a `Rat` in the model. -/
structure ParsedTransaction where
  action : TransactionAction
  amount : Option Rat := none
  source : Option String := none
  destination : Option String := none
  description : Option String := none
  raw_text : String := ""
  confidence : Rat := 0
deriving DecidableEq, Repr

/-- `ParsedTransaction.is_valid` from `models/transaction.py`: the amount
must be present and positive, and the per-action fields must be present
(`is not None`; note the code does not require them to be non-empty). -/
def ParsedTransaction.is_valid (p : ParsedTransaction) : Bool :=
  let has_amount : Bool := match p.amount with
    | none => false
    | some a => decide (0 < a)
  match p.action with
  | .transfer => has_amount && p.source.isSome && p.destination.isSome
  | .incoming => has_amount && p.destination.isSome
  | .outgoing => has_amount && p.source.isSome

/-! ## Database rows (`src/yuuka/db/base.py` schema) -/

/-- A row of the `account_groups` table. -/
structure AccountGroupRow where
  id : Nat
  name : String
  account_type : AccountType
  user_id : String
  description : Option String := none
  is_system : Bool := false
deriving DecidableEq, Repr

/-- A row of the `account_aliases` table (`alias` is a Lean keyword, so
the column is called `aliasStr`). -/
structure AccountAliasRow where
  id : Nat
  aliasStr : String
  group_id : Nat
  user_id : String
deriving DecidableEq, Repr

/-- A row of the legacy `accounts` table. -/
structure AccountRow where
  id : Nat
  name : String
  account_type : AccountType
  user_id : String
  description : Option String := none
  is_system : Bool := false
  group_id : Option Nat := none
deriving DecidableEq, Repr

/-- A row of the `transactions` table.  `created_at` is an abstract day
stamp. -/
structure TransactionRow where
  id : Nat
  description : Option String
  raw_text : String
  confidence : Rat
  user_id : String
  guild_id : Option String
  channel_id : String
  message_id : String
  created_at : Nat
  confirmed : Bool
deriving DecidableEq, Repr

/-- A row of the `journal_entries` table. -/
structure JournalRow where
  id : Nat
  transaction_id : Nat
  account_id : Nat
  account_name : String
  entry_type : EntryType
  amount : Rat
deriving DecidableEq, Repr

/-- A row of the legacy `ledger_entries` table. -/
structure LedgerRow where
  id : Nat
  action : TransactionAction
  amount : Rat
  source : Option String
  destination : Option String
  description : Option String
  raw_text : String
  confidence : Rat
  user_id : String
  guild_id : Option String
  channel_id : String
  message_id : String
  created_at : Nat
  confirmed : Bool
  transaction_id : Nat
deriving DecidableEq, Repr

/-- The whole SQLite database.  Ids are drawn from the single counter
`next_id`, starting at 1, so every id of every table is positive and
globally unique. -/
structure DB where
  account_groups : List AccountGroupRow := []
  account_aliases : List AccountAliasRow := []
  accounts : List AccountRow := []
  transactions : List TransactionRow := []
  journal_entries : List JournalRow := []
  ledger_entries : List LedgerRow := []
  next_id : Nat := 1
deriving DecidableEq, Repr

/-- The empty database. -/
def emptyDB : DB := {}

/-! ## AccountRepository (`src/yuuka/db/accounts.py`) -/

/-- `AccountRepository.create_account_group`: rejects empty names and
owners, rejects a duplicate `(lower(name), owner)`, and otherwise inserts
the group row together with an automatic alias `lower(name) -> group`. -/
def create_account_group (db : DB) (name : String) (user_id : String)
    (account_type : AccountType) (description : Option String)
    (is_system : Bool) : Except String (AccountGroupRow × DB) :=
  if pyStrip name = "" then .error "Account group name cannot be empty"
  else if user_id = "" then .error "User ID cannot be empty"
  else if db.account_groups.any (fun g =>
      pyLower g.name == pyLower (pyStrip name) && g.user_id == user_id) then
    .error "Account group already exists"
  else
    let g : AccountGroupRow :=
      { id := db.next_id, name := pyStrip name,
        account_type := account_type, user_id := user_id,
        description := description, is_system := is_system }
    let al : AccountAliasRow :=
      { id := db.next_id + 1, aliasStr := pyLower (pyStrip name),
        group_id := db.next_id, user_id := user_id }
    .ok (g, { db with
      account_groups := db.account_groups ++ [g],
      account_aliases := db.account_aliases ++ [al],
      next_id := db.next_id + 2 })

/-- `AccountRepository.get_account_group_by_name`: case-insensitive
lookup of a canonical group name (the SQL is
`LOWER(name) = LOWER(?)` on the stripped input). -/
def get_account_group_by_name (db : DB) (name : String)
    (user_id : String) : Option AccountGroupRow :=
  if name = "" then none
  else db.account_groups.find?
    (fun g => pyLower g.name == pyLower (pyStrip name) && g.user_id == user_id)

/-- `AccountRepository.add_account_alias`: normalizes the alias to
`strip().lower()`, requires the target group to exist for this owner,
returns the existing row idempotently when the alias already maps to the
same group, errors when it maps to a different group, and otherwise
inserts the new alias row. -/
def add_account_alias (db : DB) (a : String) (group_id : Nat)
    (user_id : String) : Except String (AccountAliasRow × DB) :=
  if pyStrip a = "" then .error "Alias cannot be empty"
  else if user_id = "" then .error "User ID cannot be empty"
  else if !(db.account_groups.any
        (fun g => g.id == group_id && g.user_id == user_id)) then
    .error "Account group not found"
  else
    match db.account_aliases.find?
        (fun r => r.aliasStr == stripLower a && r.user_id == user_id) with
    | some existing =>
      if existing.group_id == group_id then
        .ok ({ id := existing.id, aliasStr := stripLower a,
               group_id := group_id, user_id := user_id }, db)
      else .error "Alias is already mapped to another account"
    | none =>
      let row : AccountAliasRow :=
        { id := db.next_id, aliasStr := stripLower a,
          group_id := group_id, user_id := user_id }
      .ok (row, { db with
        account_aliases := db.account_aliases ++ [row],
        next_id := db.next_id + 1 })

/-- `AccountRepository.resolve_account_alias`: the canonical
case-insensitive, whitespace-trimmed lookup.  The SQL joins
`account_groups g ON g.id = a.group_id` with
`a.alias = ? AND a.user_id = ?`. -/
def resolve_account_alias (db : DB) (a : String)
    (user_id : String) : Option AccountGroupRow :=
  if a = "" then none
  else
    match db.account_aliases.find?
        (fun r => r.aliasStr == stripLower a && r.user_id == user_id) with
    | none => none
    | some r => db.account_groups.find? (fun g => g.id == r.group_id)

/-- The revenue keyword set of `infer_account_type`. -/
def revenue_keywords : List String :=
  ["income", "salary", "wage", "revenue", "earnings", "bonus",
   "commission", "dividend", "interest"]

/-- The expense keyword set of `infer_account_type`. -/
def expense_keywords : List String :=
  ["expense", "food", "lunch", "dinner", "breakfast", "transport",
   "commute", "rent", "utility", "subscription", "shopping",
   "entertainment", "coffee", "snack"]

/-- The asset keyword set of `infer_account_type`. -/
def asset_keywords : List String :=
  ["bank", "wallet", "cash", "account", "savings", "pocket", "gopay",
   "ovo", "dana", "shopeepay", "paypal", "venmo"]

/-- The liability keyword set of `infer_account_type`. -/
def liability_keywords : List String :=
  ["loan", "debt", "credit card", "mortgage", "payable", "owe"]

/-- `AccountRepository.infer_account_type`: keyword heuristics over
`name.lower().strip()`, defaulting to asset. -/
def infer_account_type (name : String) : AccountType :=
  let n := lowerStrip name
  if revenue_keywords.any (fun kw => strIn kw n) then .revenue
  else if expense_keywords.any (fun kw => strIn kw n) then .expense
  else if asset_keywords.any (fun kw => strIn kw n) then .asset
  else if liability_keywords.any (fun kw => strIn kw n) then .liability
  else .asset

/-- `AccountRepository.get_or_create_account` (legacy `accounts` table):
the stored name is `strip().lower()`; an existing row is returned as-is
(its type and group link are not updated). -/
def get_or_create_account (db : DB) (name : String) (user_id : String)
    (account_type : AccountType) (description : Option String)
    (is_system : Bool) (group_id : Option Nat) :
    Except String (AccountRow × DB) :=
  if pyStrip name = "" then .error "Account name cannot be empty"
  else if user_id = "" then .error "User ID cannot be empty"
  else
    match db.accounts.find? (fun a =>
        a.name == stripLower name && a.user_id == user_id) with
    | some a => .ok (a, db)
    | none =>
      let a : AccountRow :=
        { id := db.next_id, name := stripLower name,
          account_type := account_type, user_id := user_id,
          description := description, is_system := is_system,
          group_id := group_id }
      .ok (a, { db with
        accounts := db.accounts ++ [a], next_id := db.next_id + 1 })

/-- `AccountRepository.ensure_system_account_groups`: idempotently create
the three default groups of `DEFAULT_SYSTEM_ACCOUNTS`
(Income/revenue, Expense/expense, Cash/asset, in that order).  The
Python loop over the constant three-element list is unrolled here; the
returned dict `lower(name) -> group` becomes a triple. -/
def ensure_system_account_groups (db : DB) (user_id : String) :
    Except String ((AccountGroupRow × AccountGroupRow × AccountGroupRow)
      × DB) := do
  let (gI, db) ← match get_account_group_by_name db "Income" user_id with
    | some g => pure (g, db)
    | none => (create_account_group db "Income" user_id .revenue
        (some "Default income account") true)
  let (gE, db) ← match get_account_group_by_name db "Expense" user_id with
    | some g => pure (g, db)
    | none => (create_account_group db "Expense" user_id .expense
        (some "Default expense account") true)
  let (gC, db) ← match get_account_group_by_name db "Cash" user_id with
    | some g => pure (g, db)
    | none => (create_account_group db "Cash" user_id .asset
        (some "Default cash/wallet account") true)
  pure ((gI, gE, gC), db)

/-- `AccountRepository.ensure_system_accounts`: ensures the three system
groups and their legacy `accounts` rows (named by the lower-cased group
names and linked by `group_id`).  The loop over the constant list is
unrolled as above. -/
def ensure_system_accounts (db : DB) (user_id : String) :
    Except String ((AccountRow × AccountRow × AccountRow) × DB) := do
  let ((gI, gE, gC), db) ← ensure_system_account_groups db user_id
  let (aI, db) ← get_or_create_account db "income" user_id .revenue
    (some "Default income account") true (some gI.id)
  let (aE, db) ← get_or_create_account db "expense" user_id .expense
    (some "Default expense account") true (some gE.id)
  let (aC, db) ← get_or_create_account db "cash" user_id .asset
    (some "Default cash/wallet account") true (some gC.id)
  pure ((aI, aE, aC), db)

/-! ## TransactionRepository (`src/yuuka/db/transactions.py`) -/

/-- The debit/credit account names and types derived from the action in
`TransactionRepository.insert` (the `if parsed.action == ...` ladder,
including the `or` fallbacks and the unsuitable-type fallbacks). -/
def derive_sides (parsed : ParsedTransaction) :
    String × String × AccountType × AccountType :=
  match parsed.action with
  | .incoming =>
    let debit_account_name := pyOr parsed.destination "cash"
    let credit_account_name := pyOr parsed.source "income"
    let t := infer_account_type debit_account_name
    let debit_account_type :=
      if t = .asset ∨ t = .expense then t else .asset
    (debit_account_name, credit_account_name, debit_account_type, .revenue)
  | .outgoing =>
    let debit_account_name := pyOr parsed.destination "expense"
    let credit_account_name := pyOr parsed.source "cash"
    let t := infer_account_type credit_account_name
    let credit_account_type :=
      if t = .asset ∨ t = .liability then t else .asset
    (debit_account_name, credit_account_name, .expense, credit_account_type)
  | .transfer =>
    let debit_account_name := pyOr parsed.destination "cash"
    let credit_account_name := pyOr parsed.source "cash"
    let td := infer_account_type debit_account_name
    let tc := infer_account_type credit_account_name
    let debit_account_type :=
      if td = .asset ∨ td = .liability then td else .asset
    let credit_account_type :=
      if tc = .asset ∨ tc = .liability then tc else .asset
    (debit_account_name, credit_account_name,
     debit_account_type, credit_account_type)

/-- `TransactionRepository.insert`: validate, ensure system accounts,
derive and resolve the two sides, create the legacy accounts, then write
the transaction row, the two balanced journal entries (debit first) and
the legacy ledger entry.  `now` stands for `datetime.now()`. -/
def insert (db : DB) (parsed : ParsedTransaction)
    (user_id channel_id message_id : String) (guild_id : Option String)
    (confirmed : Bool) (now : Nat) : Except String (LedgerRow × DB) :=
  if user_id = "" then .error "Invalid user_id"
  else if channel_id = "" then .error "Invalid channel_id"
  else if message_id = "" then .error "Invalid message_id"
  else if !parsed.is_valid then .error "Invalid parsed transaction"
  else if (match parsed.amount with
    | none => true
    | some a => decide (a ≤ 0)) then .error "Invalid amount"
  else if parsed.confidence < 0 ∨ 1 < parsed.confidence then
    .error "Invalid confidence"
  else match ensure_system_accounts db user_id with
  | .error e => .error e
  | .ok (_, db) =>
    let (debit_account_name, credit_account_name,
         debit_account_type, credit_account_type) := derive_sides parsed
    let debit_group := resolve_account_alias db debit_account_name user_id
    let credit_group := resolve_account_alias db credit_account_name user_id
    match get_or_create_account db debit_account_name user_id
        debit_account_type none false
        (debit_group.map (fun g => g.id)) with
    | .error e => .error e
    | .ok (debit_account, db) =>
      match get_or_create_account db credit_account_name user_id
          credit_account_type none false
          (credit_group.map (fun g => g.id)) with
      | .error e => .error e
      | .ok (credit_account, db) =>
        let debit_display_name := match debit_group with
          | some g => g.name
          | none => debit_account_name
        let credit_display_name := match credit_group with
          | some g => g.name
          | none => credit_account_name
        let amount := parsed.amount.getD 0
        let tid := db.next_id
        let txn : TransactionRow :=
          { id := tid, description := parsed.description,
            raw_text := parsed.raw_text, confidence := parsed.confidence,
            user_id := user_id, guild_id := guild_id,
            channel_id := channel_id, message_id := message_id,
            created_at := now, confirmed := confirmed }
        let debit_journal_account_id := match debit_group with
          | some g => g.id
          | none => debit_account.id
        let credit_journal_account_id := match credit_group with
          | some g => g.id
          | none => credit_account.id
        let dj : JournalRow :=
          { id := tid + 1, transaction_id := tid,
            account_id := debit_journal_account_id,
            account_name := debit_display_name, entry_type := .debit,
            amount := amount }
        let cj : JournalRow :=
          { id := tid + 2, transaction_id := tid,
            account_id := credit_journal_account_id,
            account_name := credit_display_name, entry_type := .credit,
            amount := amount }
        let le : LedgerRow :=
          { id := tid + 3, action := parsed.action, amount := amount,
            source := parsed.source, destination := parsed.destination,
            description := parsed.description,
            raw_text := parsed.raw_text,
            confidence := parsed.confidence, user_id := user_id,
            guild_id := guild_id, channel_id := channel_id,
            message_id := message_id, created_at := now,
            confirmed := confirmed, transaction_id := tid }
        .ok (le, { db with
          transactions := db.transactions ++ [txn],
          journal_entries := db.journal_entries ++ [dj, cj],
          ledger_entries := db.ledger_entries ++ [le],
          next_id := tid + 4 })

/-- `new if new is not None else current`, the field-merge rule of
`update_transaction`. -/
def orCurrent (new cur : Option String) : Option String :=
  match new with
  | some s => some s
  | none => cur

/-- The rewrite applied to one journal row by `update_transaction`: both
entries of the transaction get the final amount, and the debit/credit
display names. -/
def update_journal_row (transaction_id : Nat) (final_amount : Rat)
    (debit_name credit_name : Option String) (je : JournalRow) :
    JournalRow :=
  if je.transaction_id == transaction_id then
    if je.entry_type == .debit then
      { je with amount := final_amount,
                account_name := pyOr debit_name "Unknown" }
    else
      { je with amount := final_amount,
                account_name := pyOr credit_name "Unknown" }
  else je

/-- The rewrite applied to one transaction row by `update_transaction`:
only the description changes. -/
def update_txn_row (transaction_id : Nat)
    (final_description : Option String) (t : TransactionRow) :
    TransactionRow :=
  if t.id == transaction_id then
    { t with description := final_description }
  else t

/-- The rewrite applied to one ledger row by `update_transaction`. -/
def update_ledger_row (ledger_entry_id : Nat) (final_amount : Rat)
    (final_source final_destination final_description : Option String)
    (l : LedgerRow) : LedgerRow :=
  if l.id == ledger_entry_id then
    { l with amount := final_amount, source := final_source,
             destination := final_destination,
             description := final_description }
  else l

/-- `TransactionRepository.update_transaction`: validate the arguments
(in particular a supplied non-positive amount raises before any lookup),
check ownership of the transaction and of its legacy ledger entry
(returning `none` without writing when absent), re-resolve the final
source/destination, and rewrite both journal entries with the final
amount and display names, the transaction description, and the ledger
row.  The three `current_action` branches of the source are identical, so
the model does not branch on the action. -/
def update_transaction (db : DB) (transaction_id : Nat) (user_id : String)
    (new_amount : Option Rat) (new_source new_destination new_description :
    Option String) : Except String (Option TransactionRow × DB) :=
  if transaction_id = 0 then .error "Invalid transaction_id"
  else if user_id = "" then .error "User ID is required"
  else if (match new_amount with
    | some a => decide (a ≤ 0)
    | none => false) then .error "Amount must be positive"
  else match db.transactions.find?
      (fun t => t.id == transaction_id && t.user_id == user_id) with
  | none => .ok (none, db)
  | some txn_row =>
    match db.ledger_entries.find?
        (fun l => l.transaction_id == transaction_id &&
                  l.user_id == user_id) with
    | none => .ok (none, db)
    | some ledger_row =>
      let final_amount := new_amount.getD ledger_row.amount
      let final_source := orCurrent new_source ledger_row.source
      let final_destination :=
        orCurrent new_destination ledger_row.destination
      let final_description :=
        orCurrent new_description txn_row.description
      let source_group := if optTruthy final_source then
          resolve_account_alias db (pyOr final_source "") user_id
        else none
      let dest_group := if optTruthy final_destination then
          resolve_account_alias db (pyOr final_destination "") user_id
        else none
      let debit_name : Option String := match dest_group with
        | some g => some g.name
        | none => final_destination
      let credit_name : Option String := match source_group with
        | some g => some g.name
        | none => final_source
      let journal_entries := db.journal_entries.map
        (update_journal_row transaction_id final_amount debit_name
          credit_name)
      let transactions := db.transactions.map
        (update_txn_row transaction_id final_description)
      let ledger_entries := db.ledger_entries.map
        (update_ledger_row ledger_row.id final_amount final_source
          final_destination final_description)
      let db' := { db with journal_entries := journal_entries,
                           transactions := transactions,
                           ledger_entries := ledger_entries }
      .ok (transactions.find? (fun t => t.id == transaction_id), db')

/-- `TransactionRepository.delete_entry`: ownership-checked deletion of a
ledger entry together with its transaction and both journal entries. -/
def delete_entry (db : DB) (entry_id : Nat) (user_id : String) :
    Except String (Bool × DB) :=
  if entry_id = 0 then .error "Invalid entry_id"
  else if user_id = "" then .error "User ID is required"
  else match db.ledger_entries.find? (fun l => l.id == entry_id) with
  | none => .ok (false, db)
  | some row =>
    if row.user_id ≠ user_id then .ok (false, db)
    else
      let db1 := { db with ledger_entries :=
        db.ledger_entries.filter (fun l => !(l.id == entry_id)) }
      let db2 := if row.transaction_id ≠ 0 then
          { db1 with
            journal_entries := db1.journal_entries.filter
              (fun j => !(j.transaction_id == row.transaction_id)),
            transactions := db1.transactions.filter
              (fun t => !(t.id == row.transaction_id)) }
        else db1
      .ok (true, db2)

/-! ## QueryRepository (`src/yuuka/db/queries.py`)

SQL `GROUP BY je.account_name ...` produces one row per key; the model
iterates the keys in order of first occurrence in the journal (SQLite
leaves the group order unspecified).  Python dicts preserve insertion
order, so the later loops also run in this order. -/

/-- First-occurrence deduplication (the key order of a Python dict filled
from grouped rows). -/
def dedupAux {α : Type} [DecidableEq α] : List α → List α → List α
  | _, [] => []
  | seen, x :: xs =>
    if x ∈ seen then dedupAux seen xs
    else x :: dedupAux (x :: seen) xs

/-- First-occurrence deduplication of a list. -/
def dedupFirst {α : Type} [DecidableEq α] (l : List α) : List α :=
  dedupAux [] l

/-- The SQL join `journal_entries je JOIN transactions t ON
je.transaction_id = t.id WHERE t.user_id = ?`. -/
def user_journal_rows (db : DB) (user_id : String) : List JournalRow :=
  db.journal_entries.filter (fun j =>
    db.transactions.any (fun t =>
      t.id == j.transaction_id && t.user_id == user_id))

/-- Sum of the amounts of a list of journal rows (`SUM(je.amount)`). -/
def sum_amounts (l : List JournalRow) : Rat :=
  (l.map (fun j => j.amount)).sum

/-- Total of the debit entries against one account name. -/
def debit_total (rows : List JournalRow) (name : String) : Rat :=
  sum_amounts (rows.filter
    (fun j => j.account_name == name && j.entry_type == .debit))

/-- Total of the credit entries against one account name. -/
def credit_total (rows : List JournalRow) (name : String) : Rat :=
  sum_amounts (rows.filter
    (fun j => j.account_name == name && j.entry_type == .credit))

/-- The account-type lookup performed identically by
`get_user_balance_by_account` and `get_balance_sheet`: exact-name match
in `account_groups`, then in the legacy `accounts` table, then default
asset. -/
def lookup_account_type (db : DB) (user_id : String)
    (account_name : String) : AccountType :=
  match db.account_groups.find?
      (fun g => g.name == account_name && g.user_id == user_id) with
  | some g => g.account_type
  | none =>
    match db.accounts.find?
        (fun a => a.name == account_name && a.user_id == user_id) with
    | some a => a.account_type
    | none => .asset

/-- `QueryRepository.get_user_balance_by_account`: per-name debit/credit
totals, the three-stage type lookup, then the normal-balance rule
(asset/expense: debits − credits; liability/equity/revenue:
credits − debits). -/
def get_user_balance_by_account (db : DB) (user_id : String) :
    List (String × Rat) :=
  let rows := user_journal_rows db user_id
  let names := dedupFirst (rows.map (fun j => j.account_name))
  names.map (fun n =>
    let ty := lookup_account_type db user_id n
    let d := debit_total rows n
    let c := credit_total rows n
    if ty = .asset ∨ ty = .expense then (n, d - c) else (n, c - d))

/-- The result record of `get_trial_balance`. -/
structure TrialBalance where
  accounts : List (String × Rat × Rat)
  total_debits : Rat
  total_credits : Rat
  is_balanced : Bool
deriving DecidableEq, Repr

/-- `QueryRepository.get_trial_balance`: unsigned per-account debit and
credit totals, overall totals, and
`is_balanced = |total_debits - total_credits| < 0.01`. -/
def get_trial_balance (db : DB) (user_id : String) : TrialBalance :=
  let rows := user_journal_rows db user_id
  let names := dedupFirst (rows.map (fun j => j.account_name))
  { accounts := names.map (fun n =>
      (n, debit_total rows n, credit_total rows n)),
    total_debits := (names.map (fun n => debit_total rows n)).sum,
    total_credits := (names.map (fun n => credit_total rows n)).sum,
    is_balanced := decide
      (|(names.map (fun n => debit_total rows n)).sum -
        (names.map (fun n => credit_total rows n)).sum| < 1 / 100) }

/-- The result record of `get_income_statement`. -/
structure IncomeStatement where
  revenue : List (String × Rat)
  expenses : List (String × Rat)
  total_revenue : Rat
  total_expenses : Rat
  net_income : Rat
deriving DecidableEq, Repr

/-- The optional date filter `date(t.created_at) >= start` /
`date(t.created_at) <= end`. -/
def in_date_range (t : TransactionRow) (sd ed : Option Nat) : Bool :=
  (match sd with | none => true | some s => decide (s ≤ t.created_at)) &&
  (match ed with | none => true | some e => decide (t.created_at ≤ e))

/-- `QueryRepository.get_income_statement`: revenue lines are the credit
entries joined to a revenue-typed `account_groups` row of the same owner
(grouped by name), expense lines are the debit entries joined to an
expense-typed group; `net_income = total_revenue - total_expenses`.
Note the SQL takes only `entry_type = 'credit'` rows for revenue and only
`entry_type = 'debit'` rows for expenses. -/
def get_income_statement (db : DB) (user_id : String)
    (start_date end_date : Option Nat) : IncomeStatement :=
  let revRows := db.journal_entries.filter (fun j =>
    j.entry_type == .credit &&
    db.transactions.any (fun t =>
      t.id == j.transaction_id && t.user_id == user_id &&
      in_date_range t start_date end_date) &&
    db.account_groups.any (fun g =>
      g.name == j.account_name && g.user_id == user_id &&
      g.account_type == .revenue))
  let expRows := db.journal_entries.filter (fun j =>
    j.entry_type == .debit &&
    db.transactions.any (fun t =>
      t.id == j.transaction_id && t.user_id == user_id &&
      in_date_range t start_date end_date) &&
    db.account_groups.any (fun g =>
      g.name == j.account_name && g.user_id == user_id &&
      g.account_type == .expense))
  let revNames := dedupFirst (revRows.map (fun j => j.account_name))
  let expNames := dedupFirst (expRows.map (fun j => j.account_name))
  let revenue := revNames.map (fun n =>
    (n, sum_amounts (revRows.filter (fun j => j.account_name == n))))
  let expenses := expNames.map (fun n =>
    (n, sum_amounts (expRows.filter (fun j => j.account_name == n))))
  { revenue := revenue, expenses := expenses,
    total_revenue := (revenue.map (fun e => e.2)).sum,
    total_expenses := (expenses.map (fun e => e.2)).sum,
    net_income := (revenue.map (fun e => e.2)).sum -
      (expenses.map (fun e => e.2)).sum }

/-- The result record of `get_balance_sheet`. -/
structure BalanceSheet where
  assets : List (String × Rat)
  liabilities : List (String × Rat)
  equity : List (String × Rat)
  total_assets : Rat
  total_liabilities : Rat
  total_equity : Rat
  is_balanced : Bool
deriving DecidableEq, Repr

/-- The alias-resolution step of `get_balance_sheet`: look up
`account_name.lower()` (no strip) in the alias table of the owner and
return the joined group's name, else the name itself. -/
def alias_display_name (db : DB) (user_id : String)
    (account_name : String) : String :=
  match db.account_aliases.find? (fun a =>
      a.aliasStr == pyLower account_name && a.user_id == user_id) with
  | none => account_name
  | some a =>
    match db.account_groups.find? (fun g => g.id == a.group_id) with
    | none => account_name
    | some g => g.name

/-- The aggregation dict of `get_balance_sheet`: balances with the same
display name are summed; the type recorded for a display name is the type
of the *first* account aggregated into it. -/
def agg_insert (acc : List (String × Rat × AccountType)) (display : String)
    (balance : Rat) (ty : AccountType) :
    List (String × Rat × AccountType) :=
  if acc.any (fun e => e.1 == display) then
    acc.map (fun e =>
      if e.1 == display then (e.1, e.2.1 + balance, e.2.2) else e)
  else acc ++ [(display, balance, ty)]

/-- One step of the classification loop of `get_balance_sheet`: list an
asset, liability or equity bucket; fold a revenue balance into equity
with `+` and an expense balance with `-`. -/
def bsf_step (s : List (String × Rat) × List (String × Rat) ×
    List (String × Rat) × Rat × Rat × Rat)
    (e : String × Rat × AccountType) :
    List (String × Rat) × List (String × Rat) × List (String × Rat) ×
    Rat × Rat × Rat :=
  let (as_, ls, es, ta, tl, te) := s
  let (name, balance, ty) := e
  match ty with
  | .asset => (as_ ++ [(name, balance)], ls, es, ta + balance, tl, te)
  | .liability => (as_, ls ++ [(name, balance)], es, ta, tl + balance, te)
  | .equity => (as_, ls, es ++ [(name, balance)], ta, tl, te + balance)
  | .revenue => (as_, ls, es, ta, tl, te + balance)
  | .expense => (as_, ls, es, ta, tl, te - balance)

/-- The classification loop of `get_balance_sheet`. -/
def balance_sheet_fold (agg : List (String × Rat × AccountType)) :
    List (String × Rat) × List (String × Rat) × List (String × Rat) ×
    Rat × Rat × Rat :=
  agg.foldl bsf_step ([], [], [], 0, 0, 0)

/-- `QueryRepository.get_balance_sheet`: take the per-name balances,
re-resolve each name through the alias table into a display bucket
(summing, with first-seen type), then classify buckets by that type;
`is_balanced = |total_assets - (total_liabilities + total_equity)| <
0.01`. -/
def get_balance_sheet (db : DB) (user_id : String) : BalanceSheet :=
  let balances := get_user_balance_by_account db user_id
  let agg := balances.foldl (fun acc nb =>
    let ty := lookup_account_type db user_id nb.1
    let display := alias_display_name db user_id nb.1
    agg_insert acc display nb.2 ty) []
  let (assets, liabilities, equity, ta, tl, te) := balance_sheet_fold agg
  { assets := assets, liabilities := liabilities, equity := equity,
    total_assets := ta, total_liabilities := tl, total_equity := te,
    is_balanced := decide (|ta - (tl + te)| < 1 / 100) }

/-! ## String lemmas -/

set_option maxHeartbeats 2000000 in
/-- ASCII case folding does not change whether a character is
whitespace. -/
theorem isPySpace_pyCharLower (c : Char) :
    isPySpace (pyCharLower c) = isPySpace c := by
  unfold pyCharLower
  by_cases hA : c = 'A'
  · subst hA; decide
  rw [if_neg hA]
  by_cases hB : c = 'B'
  · subst hB; decide
  rw [if_neg hB]
  by_cases hC : c = 'C'
  · subst hC; decide
  rw [if_neg hC]
  by_cases hD : c = 'D'
  · subst hD; decide
  rw [if_neg hD]
  by_cases hE : c = 'E'
  · subst hE; decide
  rw [if_neg hE]
  by_cases hF : c = 'F'
  · subst hF; decide
  rw [if_neg hF]
  by_cases hG : c = 'G'
  · subst hG; decide
  rw [if_neg hG]
  by_cases hH : c = 'H'
  · subst hH; decide
  rw [if_neg hH]
  by_cases hI : c = 'I'
  · subst hI; decide
  rw [if_neg hI]
  by_cases hJ : c = 'J'
  · subst hJ; decide
  rw [if_neg hJ]
  by_cases hK : c = 'K'
  · subst hK; decide
  rw [if_neg hK]
  by_cases hL : c = 'L'
  · subst hL; decide
  rw [if_neg hL]
  by_cases hM : c = 'M'
  · subst hM; decide
  rw [if_neg hM]
  by_cases hN : c = 'N'
  · subst hN; decide
  rw [if_neg hN]
  by_cases hO : c = 'O'
  · subst hO; decide
  rw [if_neg hO]
  by_cases hP : c = 'P'
  · subst hP; decide
  rw [if_neg hP]
  by_cases hQ : c = 'Q'
  · subst hQ; decide
  rw [if_neg hQ]
  by_cases hR : c = 'R'
  · subst hR; decide
  rw [if_neg hR]
  by_cases hS : c = 'S'
  · subst hS; decide
  rw [if_neg hS]
  by_cases hT : c = 'T'
  · subst hT; decide
  rw [if_neg hT]
  by_cases hU : c = 'U'
  · subst hU; decide
  rw [if_neg hU]
  by_cases hV : c = 'V'
  · subst hV; decide
  rw [if_neg hV]
  by_cases hW : c = 'W'
  · subst hW; decide
  rw [if_neg hW]
  by_cases hX : c = 'X'
  · subst hX; decide
  rw [if_neg hX]
  by_cases hY : c = 'Y'
  · subst hY; decide
  rw [if_neg hY]
  by_cases hZ : c = 'Z'
  · subst hZ; decide
  rw [if_neg hZ]

/-- Mapping a character of `s` lands in `pyLower s`. -/
theorem mem_data_pyLower {s : String} {c : Char} (h : c ∈ s.data) :
    pyCharLower c ∈ (pyLower s).data := by
  simp only [pyLower]
  exact List.mem_map.mpr ⟨c, h, rfl⟩

/-- If `pyLower s` contains no whitespace then neither does `s`. -/
theorem no_space_of_pyLower {s : String}
    (h : ∀ c ∈ (pyLower s).data, isPySpace c = false) :
    ∀ c ∈ s.data, isPySpace c = false := by
  intro c hc
  rw [← isPySpace_pyCharLower]
  exact h _ (mem_data_pyLower hc)

/-- `dropWhile` is the identity on a list none of whose elements satisfy
the predicate. -/
theorem dropWhile_eq_self_of_none {α : Type} (p : α → Bool) (l : List α)
    (h : ∀ c ∈ l, p c = false) : l.dropWhile p = l := by
  cases l with
  | nil => rfl
  | cons x xs =>
    rw [List.dropWhile_cons]
    simp [h x (by simp)]

/-- Stripping a whitespace-free character list is the identity. -/
theorem stripChars_eq_self (l : List Char)
    (h : ∀ c ∈ l, isPySpace c = false) : stripChars l = l := by
  unfold stripChars
  rw [dropWhile_eq_self_of_none _ _ h, dropWhile_eq_self_of_none,
      List.reverse_reverse]
  intro c hc
  exact h c (List.mem_reverse.mp hc)

/-- Stripping a whitespace-free string is the identity. -/
theorem pyStrip_eq_self {s : String}
    (h : ∀ c ∈ s.data, isPySpace c = false) : pyStrip s = s := by
  unfold pyStrip
  rw [stripChars_eq_self _ h]

/-- On a string whose lower-casing contains no whitespace,
`strip().lower()` agrees with `lower()`. -/
theorem stripLower_eq_pyLower {s : String}
    (h : ∀ c ∈ (pyLower s).data, isPySpace c = false) :
    stripLower s = pyLower s := by
  unfold stripLower
  rw [pyStrip_eq_self (no_space_of_pyLower h)]

/-! ## List lemmas -/

/-- `find?` with a conjoined predicate is `find?` on the filtered
list: the model's counterpart of adding a `WHERE user_id = ?` clause. -/
theorem find?_and_filter {α : Type} (p q : α → Bool) (l : List α) :
    l.find? (fun x => p x && q x) = (l.filter q).find? p := by
  induction l with
  | nil => rfl
  | cons x xs ih =>
    by_cases hq : q x
    · by_cases hp : p x
      · simp [List.find?_cons, List.filter_cons, hq, hp]
      · simp [List.find?_cons, List.filter_cons, hq, hp, ih]
    · simp [List.find?_cons, List.filter_cons, hq, ih]

/-- A `find?` that succeeds on a list still succeeds, with the same
witness, after rows are appended. -/
theorem find?_append_some {α : Type} {p : α → Bool} {l₁ : List α}
    {a : α} (l₂ : List α) (h : l₁.find? p = some a) :
    (l₁ ++ l₂).find? p = some a := by
  rw [List.find?_append, h]
  rfl

/-- A `find?` that fails on a list proceeds into the appended rows. -/
theorem find?_append_none {α : Type} {p : α → Bool} {l₁ : List α}
    (l₂ : List α) (h : l₁.find? p = none) :
    (l₁ ++ l₂).find? p = l₂.find? p := by
  rw [List.find?_append, h]
  rfl

/-- In a list whose keys are distinct, looking up the key of a member
returns that member. -/
theorem find?_key_of_nodup {α κ : Type} [DecidableEq κ] (key : α → κ)
    (l : List α) (x : α) (hx : x ∈ l)
    (hnd : (l.map key).Nodup) :
    l.find? (fun y => key y == key x) = some x := by
  induction l with
  | nil => cases hx
  | cons y ys ih =>
    rw [List.map_cons, List.nodup_cons] at hnd
    rcases List.mem_cons.mp hx with h | h
    · subst h
      simp [List.find?_cons]
    · by_cases hk : key y = key x
      · exfalso
        exact hnd.1 (hk ▸ List.mem_map.mpr ⟨x, h, rfl⟩)
      · have hkf : (key y == key x) = false := beq_eq_false_iff_ne.mpr hk
        rw [List.find?_cons, hkf]
        exact ih h hnd.2

/-- Splitting the sum of mapped values along a filter. -/
theorem sum_map_filter_add {α : Type} (p : α → Bool) (f : α → Rat)
    (l : List α) :
    ((l.filter p).map f).sum +
      ((l.filter (fun x => !(p x))).map f).sum = (l.map f).sum := by
  induction l with
  | nil => simp
  | cons x xs ih =>
    by_cases h : p x <;> simp [List.filter_cons, h] <;> linarith [ih]

/-- Summing fiber-wise over a covering list of distinct keys equals the
total sum: the partition behind SQL `GROUP BY`. -/
theorem sum_fiber {α κ : Type} [DecidableEq κ] (key : α → κ)
    (f : α → Rat) (ns : List κ) (l : List α) (hnd : ns.Nodup)
    (hcov : ∀ x ∈ l, key x ∈ ns) :
    (ns.map (fun k =>
      ((l.filter (fun x => key x == k)).map f).sum)).sum =
      (l.map f).sum := by
  induction ns generalizing l with
  | nil =>
    have : l = [] := by
      cases l with
      | nil => rfl
      | cons x xs => cases hcov x (by simp)
    subst this
    simp
  | cons k ks ih =>
    rw [List.nodup_cons] at hnd
    have hsplit := sum_map_filter_add (fun x => key x == k) f l
    have hrest : (ks.map (fun k' =>
        ((l.filter (fun x => key x == k')).map f).sum)).sum =
        (((l.filter (fun x => !(key x == k))).map f)).sum := by
      have hfib : ∀ k' ∈ ks,
          l.filter (fun x => key x == k') =
          (l.filter (fun x => !(key x == k))).filter
            (fun x => key x == k') := by
        intro k' hk'
        rw [List.filter_filter]
        apply List.filter_congr
        intro x _
        by_cases hx : key x = k'
        · have hne : (key x == k) = false := by
            apply beq_eq_false_iff_ne.mpr
            intro hkk
            have hkeq : k = k' := by rw [← hkk, hx]
            exact hnd.1 (hkeq ▸ hk')
          have hkk : ¬ k' = k := fun h => hnd.1 (h ▸ hk')
          simp [hx, hne, hkk]
        · simp [hx]
      calc (ks.map (fun k' =>
          ((l.filter (fun x => key x == k')).map f).sum)).sum
          = (ks.map (fun k' =>
          (((l.filter (fun x => !(key x == k))).filter
            (fun x => key x == k')).map f).sum)).sum := by
            apply congrArg
            exact List.map_congr_left (fun k' hk' => by rw [hfib k' hk'])
        _ = (((l.filter (fun x => !(key x == k))).map f)).sum := by
            refine ih _ hnd.2 ?_
            intro x hxmem
            have hx := List.mem_filter.mp hxmem
            have := hcov x hx.1
            rcases List.mem_cons.mp this with h | h
            · exfalso
              have h2 := hx.2
              simp [h] at h2
            · exact h
    rw [List.map_cons, List.sum_cons, hrest]
    linarith

/-- Membership in first-occurrence deduplication. -/
theorem mem_dedupAux {α : Type} [DecidableEq α] (seen l : List α)
    (x : α) : x ∈ dedupAux seen l ↔ x ∈ l ∧ x ∉ seen := by
  induction l generalizing seen with
  | nil => simp [dedupAux]
  | cons y ys ih =>
    by_cases hy : y ∈ seen
    · rw [dedupAux, if_pos hy, ih]
      constructor
      · rintro ⟨h1, h2⟩
        exact ⟨List.mem_cons_of_mem _ h1, h2⟩
      · rintro ⟨h1, h2⟩
        rcases List.mem_cons.mp h1 with h | h
        · subst h
          exact absurd hy h2
        · exact ⟨h, h2⟩
    · rw [dedupAux, if_neg hy]
      by_cases hxy : x = y
      · subst hxy
        constructor
        · intro _
          exact ⟨List.mem_cons_self x _, hy⟩
        · intro _
          exact List.mem_cons_self x _
      · constructor
        · intro h
          rcases List.mem_cons.mp h with h | h
          · exact absurd h hxy
          · have h3 := (ih (y :: seen)).mp h
            exact ⟨List.mem_cons_of_mem _ h3.1,
              fun hc => h3.2 (List.mem_cons_of_mem _ hc)⟩
        · rintro ⟨h1, h2⟩
          rcases List.mem_cons.mp h1 with h | h
          · exact absurd h hxy
          · exact List.mem_cons_of_mem _ ((ih (y :: seen)).mpr
              ⟨h, fun hc => by
                rcases List.mem_cons.mp hc with h' | h'
                · exact hxy h'
                · exact h2 h'⟩)

/-- Membership in `dedupFirst`. -/
theorem mem_dedupFirst {α : Type} [DecidableEq α] (l : List α) (x : α) :
    x ∈ dedupFirst l ↔ x ∈ l := by
  rw [dedupFirst, mem_dedupAux]
  simp

/-- First-occurrence deduplication has no duplicates. -/
theorem dedupAux_nodup {α : Type} [DecidableEq α] (seen l : List α) :
    (dedupAux seen l).Nodup := by
  induction l generalizing seen with
  | nil => exact List.nodup_nil
  | cons y ys ih =>
    by_cases hy : y ∈ seen
    · rw [dedupAux, if_pos hy]
      exact ih seen
    · rw [dedupAux, if_neg hy]
      refine List.nodup_cons.mpr ⟨?_, ih (y :: seen)⟩
      intro hmem
      exact ((mem_dedupAux _ _ _).mp hmem).2 (List.mem_cons_self _ _)

/-- `dedupFirst` has no duplicates. -/
theorem dedupFirst_nodup {α : Type} [DecidableEq α] (l : List α) :
    (dedupFirst l).Nodup := dedupAux_nodup [] l

/-- Filtering an appended list whose new part fails the predicate. -/
theorem filter_append_right_nil {α : Type} (p : α → Bool)
    (l₁ l₂ : List α) (h : ∀ x ∈ l₂, p x = false) :
    (l₁ ++ l₂).filter p = l₁.filter p := by
  rw [List.filter_append]
  have : l₂.filter p = [] := by
    rw [List.filter_eq_nil_iff]
    intro a ha
    simp [h a ha]
  rw [this, List.append_nil]

/-! ## The system-account state of a user

In histories built from `post`/`update`/`delete` only, a user's
`account_groups` and `account_aliases` rows are exactly those created by
`ensure_system_accounts` on the user's first post: either nothing, or the
three default groups with their automatic aliases. -/

/-- The `account_groups` rows of one owner. -/
def groups_of (db : DB) (u : String) : List AccountGroupRow :=
  db.account_groups.filter (fun g => g.user_id == u)

/-- The `account_aliases` rows of one owner. -/
def aliases_of (db : DB) (u : String) : List AccountAliasRow :=
  db.account_aliases.filter (fun a => a.user_id == u)

/-- The system `Income` group row. -/
def incomeGroup (i : Nat) (u : String) : AccountGroupRow :=
  { id := i, name := "Income", account_type := .revenue, user_id := u,
    description := some "Default income account", is_system := true }

/-- The system `Expense` group row. -/
def expenseGroup (i : Nat) (u : String) : AccountGroupRow :=
  { id := i, name := "Expense", account_type := .expense, user_id := u,
    description := some "Default expense account", is_system := true }

/-- The system `Cash` group row. -/
def cashGroup (i : Nat) (u : String) : AccountGroupRow :=
  { id := i, name := "Cash", account_type := .asset, user_id := u,
    description := some "Default cash/wallet account", is_system := true }

/-- An automatic alias row. -/
def sysAlias (j : Nat) (s : String) (i : Nat) (u : String) :
    AccountAliasRow :=
  { id := j, aliasStr := s, group_id := i, user_id := u }

/-- The user has exactly the three system groups and their automatic
aliases. -/
def SysFull (db : DB) (u : String) : Prop :=
  ∃ i1 i2 i3 j1 j2 j3 : Nat,
    groups_of db u =
      [incomeGroup i1 u, expenseGroup i2 u, cashGroup i3 u] ∧
    aliases_of db u =
      [sysAlias j1 "income" i1 u, sysAlias j2 "expense" i2 u,
       sysAlias j3 "cash" i3 u]

/-- The user has no groups and no aliases at all. -/
def SysEmpty (db : DB) (u : String) : Prop :=
  groups_of db u = [] ∧ aliases_of db u = []

/-- `alias_display_name` reads only the alias and group tables. -/
theorem alias_display_name_congr (db db' : DB)
    (hA : db'.account_aliases = db.account_aliases)
    (hG : db'.account_groups = db.account_groups) (u n : String) :
    alias_display_name db' u n = alias_display_name db u n := by
  unfold alias_display_name
  rw [hA, hG]

/-- `resolve_account_alias` reads only the alias and group tables. -/
theorem resolve_account_alias_congr (db db' : DB)
    (hA : db'.account_aliases = db.account_aliases)
    (hG : db'.account_groups = db.account_groups) (n u : String) :
    resolve_account_alias db' n u = resolve_account_alias db n u := by
  unfold resolve_account_alias
  rw [hA, hG]

/-- `SysFull` reads only the alias and group tables. -/
theorem sysFull_congr (db db' : DB)
    (hA : db'.account_aliases = db.account_aliases)
    (hG : db'.account_groups = db.account_groups) (u : String)
    (h : SysFull db u) : SysFull db' u := by
  unfold SysFull groups_of aliases_of at h ⊢
  rw [hA, hG]
  exact h

/-- Appending groups with fresh ids and aliases of another owner does not
change any display name of owner `v`. -/
theorem alias_display_append (db db' : DB) (v n : String)
    (newG : List AccountGroupRow) (newAl : List AccountAliasRow)
    (hG : db'.account_groups = db.account_groups ++ newG)
    (hA : db'.account_aliases = db.account_aliases ++ newAl)
    (hvn : ∀ a ∈ newAl, a.user_id ≠ v)
    (halias : ∀ a ∈ db.account_aliases, a.group_id < db.next_id)
    (hnewg : ∀ g ∈ newG, db.next_id ≤ g.id) :
    alias_display_name db' v n = alias_display_name db v n := by
  unfold alias_display_name
  rw [hA, hG]
  cases hfa : db.account_aliases.find? (fun a =>
      a.aliasStr == pyLower n && a.user_id == v) with
  | none =>
    have h2 : (db.account_aliases ++ newAl).find? (fun a =>
        a.aliasStr == pyLower n && a.user_id == v) = none := by
      rw [find?_append_none _ hfa, List.find?_eq_none]
      intro a ha
      simp [hvn a ha]
    rw [h2]
  | some r =>
    rw [find?_append_some _ hfa]
    have hrmem : r ∈ db.account_aliases := List.mem_of_find?_eq_some hfa
    dsimp only
    cases hfg : db.account_groups.find? (fun g => g.id == r.group_id) with
    | none =>
      have h3 : (db.account_groups ++ newG).find?
          (fun g => g.id == r.group_id) = none := by
        rw [find?_append_none _ hfg, List.find?_eq_none]
        intro g hg
        have h4 := halias r hrmem
        have h5 := hnewg g hg
        simp only [beq_iff_eq]
        omega
      rw [h3]
    | some g =>
      rw [find?_append_some _ hfg]

/-- Under `SysFull`, a successful alias resolution yields one of the
three concrete system groups, present in the group table. -/
theorem sysfull_resolve (db : DB) (u n : String) (g : AccountGroupRow)
    (hs : SysFull db u)
    (hnd : (db.account_groups.map (fun g => g.id)).Nodup)
    (hres : resolve_account_alias db n u = some g) :
    (∃ i, g = incomeGroup i u ∨ g = expenseGroup i u ∨ g = cashGroup i u) ∧
      g ∈ db.account_groups := by
  obtain ⟨i1, i2, i3, j1, j2, j3, hgs, has⟩ := hs
  unfold resolve_account_alias at hres
  by_cases hn : n = ""
  · rw [if_pos hn] at hres
    cases hres
  rw [if_neg hn, find?_and_filter] at hres
  have has' : db.account_aliases.filter (fun a => a.user_id == u) =
      [sysAlias j1 "income" i1 u, sysAlias j2 "expense" i2 u,
       sysAlias j3 "cash" i3 u] := has
  rw [has'] at hres
  have hmemI : incomeGroup i1 u ∈ db.account_groups := by
    have h : incomeGroup i1 u ∈ groups_of db u := by
      rw [hgs]; exact List.mem_cons_self _ _
    exact (List.mem_filter.mp h).1
  have hmemE : expenseGroup i2 u ∈ db.account_groups := by
    have h : expenseGroup i2 u ∈ groups_of db u := by
      rw [hgs]; simp
    exact (List.mem_filter.mp h).1
  have hmemC : cashGroup i3 u ∈ db.account_groups := by
    have h : cashGroup i3 u ∈ groups_of db u := by
      rw [hgs]; simp
    exact (List.mem_filter.mp h).1
  by_cases h1 : stripLower n = "income"
  · have e1 : (("income" : String) == stripLower n) = true := by
      rw [h1]; decide
    simp only [List.find?_cons, sysAlias, e1] at hres
    have hfind := find?_key_of_nodup (fun g => g.id) db.account_groups
      (incomeGroup i1 u) hmemI hnd
    simp only [incomeGroup] at hfind
    rw [hfind] at hres
    cases hres
    exact ⟨⟨i1, Or.inl rfl⟩, hmemI⟩
  have e1 : (("income" : String) == stripLower n) = false :=
    beq_eq_false_iff_ne.mpr (fun h => h1 h.symm)
  by_cases h2 : stripLower n = "expense"
  · have e2 : (("expense" : String) == stripLower n) = true := by
      rw [h2]; decide
    simp only [List.find?_cons, sysAlias, e1, e2] at hres
    have hfind := find?_key_of_nodup (fun g => g.id) db.account_groups
      (expenseGroup i2 u) hmemE hnd
    simp only [expenseGroup] at hfind
    rw [hfind] at hres
    cases hres
    exact ⟨⟨i2, Or.inr (Or.inl rfl)⟩, hmemE⟩
  have e2 : (("expense" : String) == stripLower n) = false :=
    beq_eq_false_iff_ne.mpr (fun h => h2 h.symm)
  by_cases h3 : stripLower n = "cash"
  · have e3 : (("cash" : String) == stripLower n) = true := by
      rw [h3]; decide
    simp only [List.find?_cons, sysAlias, e1, e2, e3] at hres
    have hfind := find?_key_of_nodup (fun g => g.id) db.account_groups
      (cashGroup i3 u) hmemC hnd
    simp only [cashGroup] at hfind
    rw [hfind] at hres
    cases hres
    exact ⟨⟨i3, Or.inr (Or.inr rfl)⟩, hmemC⟩
  · have e3 : (("cash" : String) == stripLower n) = false :=
      beq_eq_false_iff_ne.mpr (fun h => h3 h.symm)
    simp only [List.find?_cons, sysAlias, e1, e2, e3, List.find?_nil]
      at hres
    cases hres

/-- Evaluating `alias_display_name` when both lookups are known. -/
theorem display_of_find (db : DB) (u n : String) (r : AccountAliasRow)
    (g : AccountGroupRow)
    (hfa : db.account_aliases.find? (fun a =>
      a.aliasStr == pyLower n && a.user_id == u) = some r)
    (hfg : db.account_groups.find? (fun g2 => g2.id == r.group_id) =
      some g) :
    alias_display_name db u n = g.name := by
  unfold alias_display_name
  rw [hfa]
  dsimp only
  rw [hfg]

/-- Evaluating `alias_display_name` when the alias lookup fails. -/
theorem display_of_find_none (db : DB) (u n : String)
    (hfa : db.account_aliases.find? (fun a =>
      a.aliasStr == pyLower n && a.user_id == u) = none) :
    alias_display_name db u n = n := by
  unfold alias_display_name
  rw [hfa]

/-- Under `SysFull`, the balance-sheet alias re-resolution maps each
canonical system display name to itself. -/
theorem sysfull_display_canonical (db : DB) (u n : String)
    (hs : SysFull db u)
    (hnd : (db.account_groups.map (fun g => g.id)).Nodup)
    (hn : n = "Income" ∨ n = "Expense" ∨ n = "Cash") :
    alias_display_name db u n = n := by
  obtain ⟨i1, i2, i3, j1, j2, j3, hgs, has⟩ := hs
  have has' : db.account_aliases.filter (fun a => a.user_id == u) =
      [sysAlias j1 "income" i1 u, sysAlias j2 "expense" i2 u,
       sysAlias j3 "cash" i3 u] := has
  have hmemI : incomeGroup i1 u ∈ db.account_groups := by
    have h : incomeGroup i1 u ∈ groups_of db u := by
      rw [hgs]; simp
    exact (List.mem_filter.mp h).1
  have hmemE : expenseGroup i2 u ∈ db.account_groups := by
    have h : expenseGroup i2 u ∈ groups_of db u := by
      rw [hgs]; simp
    exact (List.mem_filter.mp h).1
  have hmemC : cashGroup i3 u ∈ db.account_groups := by
    have h : cashGroup i3 u ∈ groups_of db u := by
      rw [hgs]; simp
    exact (List.mem_filter.mp h).1
  have hfI := find?_key_of_nodup (fun g => g.id) db.account_groups
    (incomeGroup i1 u) hmemI hnd
  have hfE := find?_key_of_nodup (fun g => g.id) db.account_groups
    (expenseGroup i2 u) hmemE hnd
  have hfC := find?_key_of_nodup (fun g => g.id) db.account_groups
    (cashGroup i3 u) hmemC hnd
  simp only [incomeGroup] at hfI
  simp only [expenseGroup] at hfE
  simp only [cashGroup] at hfC
  rcases hn with hn | hn | hn <;> subst hn
  · have hfa : db.account_aliases.find? (fun a =>
        a.aliasStr == pyLower "Income" && a.user_id == u) =
        some (sysAlias j1 "income" i1 u) := by
      rw [find?_and_filter, has']
      have hl : pyLower "Income" = "income" := by decide
      rw [hl]
      simp [List.find?_cons, sysAlias]
    rw [display_of_find db u "Income" (sysAlias j1 "income" i1 u)
      (incomeGroup i1 u) hfa (by simpa [sysAlias] using hfI)]
    rfl
  · have hfa : db.account_aliases.find? (fun a =>
        a.aliasStr == pyLower "Expense" && a.user_id == u) =
        some (sysAlias j2 "expense" i2 u) := by
      rw [find?_and_filter, has']
      have hl : pyLower "Expense" = "expense" := by decide
      rw [hl]
      have b1 : (("income" : String) == "expense") = false := by decide
      simp [List.find?_cons, sysAlias, b1]
    rw [display_of_find db u "Expense" (sysAlias j2 "expense" i2 u)
      (expenseGroup i2 u) hfa (by simpa [sysAlias] using hfE)]
    rfl
  · have hfa : db.account_aliases.find? (fun a =>
        a.aliasStr == pyLower "Cash" && a.user_id == u) =
        some (sysAlias j3 "cash" i3 u) := by
      rw [find?_and_filter, has']
      have hl : pyLower "Cash" = "cash" := by decide
      rw [hl]
      have b1 : (("income" : String) == "cash") = false := by decide
      have b2 : (("expense" : String) == "cash") = false := by decide
      simp [List.find?_cons, sysAlias, b1, b2]
    rw [display_of_find db u "Cash" (sysAlias j3 "cash" i3 u)
      (cashGroup i3 u) hfa (by simpa [sysAlias] using hfC)]
    rfl

/-- Under `SysFull`, a name that does not resolve through the alias table
is its own balance-sheet display name. -/
theorem sysfull_display_raw (db : DB) (u n : String)
    (hs : SysFull db u)
    (hnd : (db.account_groups.map (fun g => g.id)).Nodup)
    (hres : resolve_account_alias db n u = none) :
    alias_display_name db u n = n := by
  obtain ⟨i1, i2, i3, j1, j2, j3, hgs, has⟩ := hs
  have has' : db.account_aliases.filter (fun a => a.user_id == u) =
      [sysAlias j1 "income" i1 u, sysAlias j2 "expense" i2 u,
       sysAlias j3 "cash" i3 u] := has
  cases hfa : db.account_aliases.find? (fun a =>
      a.aliasStr == pyLower n && a.user_id == u) with
  | none => exact display_of_find_none db u n hfa
  | some r =>
    exfalso
    have hfa2 := hfa
    rw [find?_and_filter, has'] at hfa2
    have hpred := List.find?_some hfa2
    have hrmem := List.mem_of_find?_eq_some hfa2
    simp only [List.mem_cons, List.not_mem_nil, or_false] at hrmem
    have hlow : pyLower n = "income" ∨ pyLower n = "expense" ∨
        pyLower n = "cash" := by
      rcases hrmem with h | h | h <;> subst h
      · exact Or.inl (beq_iff_eq.mp hpred).symm
      · exact Or.inr (Or.inl (beq_iff_eq.mp hpred).symm)
      · exact Or.inr (Or.inr (beq_iff_eq.mp hpred).symm)
    have hnsp : ∀ c ∈ (pyLower n).data, isPySpace c = false := by
      rcases hlow with h | h | h <;> rw [h] <;> decide
    have hsl : stripLower n = pyLower n := stripLower_eq_pyLower hnsp
    have hne : n ≠ "" := by
      intro h
      rw [h] at hlow
      rcases hlow with h2 | h2 | h2 <;> exact absurd h2 (by decide)
    have hgrp : ∃ g0 ∈ db.account_groups, g0.id = r.group_id := by
      rcases hrmem with h | h | h <;> subst h
      · refine ⟨incomeGroup i1 u, ?_, rfl⟩
        have h2 : incomeGroup i1 u ∈ groups_of db u := by
          rw [hgs]; simp
        exact (List.mem_filter.mp h2).1
      · refine ⟨expenseGroup i2 u, ?_, rfl⟩
        have h2 : expenseGroup i2 u ∈ groups_of db u := by
          rw [hgs]; simp
        exact (List.mem_filter.mp h2).1
      · refine ⟨cashGroup i3 u, ?_, rfl⟩
        have h2 : cashGroup i3 u ∈ groups_of db u := by
          rw [hgs]; simp
        exact (List.mem_filter.mp h2).1
    obtain ⟨g0, hg0mem, hg0id⟩ := hgrp
    have hfind := find?_key_of_nodup (fun g => g.id) db.account_groups
      g0 hg0mem hnd
    dsimp only at hfind
    rw [hg0id] at hfind
    unfold resolve_account_alias at hres
    rw [if_neg hne, hsl, hfa] at hres
    dsimp only at hres
    rw [hfind] at hres
    cases hres

/-- Under `SysFull`, the display name of a successfully resolved group is
itself. -/
theorem resolve_some_display (db : DB) (u n : String)
    (g : AccountGroupRow) (hs : SysFull db u)
    (hnd : (db.account_groups.map (fun g => g.id)).Nodup)
    (hres : resolve_account_alias db n u = some g) :
    alias_display_name db u g.name = g.name := by
  obtain ⟨⟨i, hg⟩, _⟩ := sysfull_resolve db u n g hs hnd hres
  apply sysfull_display_canonical db u g.name hs hnd
  rcases hg with h | h | h <;> subst h <;> simp [incomeGroup, expenseGroup,
    cashGroup]

/-! ## Operation specification lemmas -/

/-- `any` with a conjoined predicate is `any` on the filtered list. -/
theorem any_and_filter {α : Type} (p q : α → Bool) (l : List α) :
    (l.any (fun x => p x && q x)) = ((l.filter q).any p) := by
  induction l with
  | nil => rfl
  | cons x xs ih =>
    by_cases hq : q x
    · by_cases hp : p x <;> simp [List.filter_cons, hq, hp, ih]
    · simp [List.filter_cons, hq, ih]

/-- A successful `get_or_create_account` changes at most the `accounts`
table and the id counter. -/
theorem get_or_create_ok {db : DB} {name u : String} {ty : AccountType}
    {desc : Option String} {issys : Bool} {gid : Option Nat}
    {a : AccountRow} {db' : DB}
    (h : get_or_create_account db name u ty desc issys gid =
      .ok (a, db')) :
    db'.account_groups = db.account_groups ∧
    db'.account_aliases = db.account_aliases ∧
    db'.transactions = db.transactions ∧
    db'.journal_entries = db.journal_entries ∧
    db'.ledger_entries = db.ledger_entries ∧
    db.next_id ≤ db'.next_id ∧
    (∃ acc2, db'.accounts = db.accounts ++ acc2) := by
  unfold get_or_create_account at h
  split at h
  · cases h
  split at h
  · cases h
  split at h
  · cases h
    exact ⟨rfl, rfl, rfl, rfl, rfl, le_refl _, [], by simp⟩
  · cases h
    exact ⟨rfl, rfl, rfl, rfl, rfl, by simp, _, rfl⟩

/-- A successful `create_account_group` appends exactly the group row and
its automatic alias. -/
theorem create_group_ok {db : DB} {name u : String} {ty : AccountType}
    {desc : Option String} {issys : Bool} {g : AccountGroupRow} {db' : DB}
    (h : create_account_group db name u ty desc issys = .ok (g, db')) :
    g = { id := db.next_id, name := pyStrip name, account_type := ty,
          user_id := u, description := desc, is_system := issys } ∧
    db'.account_groups = db.account_groups ++ [g] ∧
    db'.account_aliases = db.account_aliases ++
      [{ id := db.next_id + 1, aliasStr := pyLower (pyStrip name),
         group_id := db.next_id, user_id := u }] ∧
    db'.accounts = db.accounts ∧
    db'.transactions = db.transactions ∧
    db'.journal_entries = db.journal_entries ∧
    db'.ledger_entries = db.ledger_entries ∧
    db'.next_id = db.next_id + 2 := by
  unfold create_account_group at h
  split at h
  · cases h
  split at h
  · cases h
  split at h
  · cases h
  cases h
  exact ⟨rfl, rfl, rfl, rfl, rfl, rfl, rfl, rfl⟩

/-- `get_or_create_account` succeeds whenever the name and owner are
non-empty. -/
theorem get_or_create_isOk (db : DB) (name u : String) (ty : AccountType)
    (desc : Option String) (issys : Bool) (gid : Option Nat)
    (h1 : ¬ pyStrip name = "") (h2 : ¬ u = "") :
    ∃ a db', get_or_create_account db name u ty desc issys gid =
      .ok (a, db') := by
  unfold get_or_create_account
  rw [if_neg h1, if_neg h2]
  cases h : db.accounts.find? (fun a =>
      a.name == stripLower name && a.user_id == u) with
  | none => exact ⟨_, _, rfl⟩
  | some a => exact ⟨_, _, rfl⟩

/-- `(Except.ok a) >>= k` computes. -/
theorem ok_bind {ε α β : Type} (a : α) (k : α → Except ε β) :
    ((Except.ok a : Except ε α) >>= k) = k a := rfl

/-- `(pure a) >>= k` computes in `Except`. -/
theorem pure_bind_except {ε α β : Type} (a : α) (k : α → Except ε β) :
    ((pure a : Except ε α) >>= k) = k a := rfl

/-- `get_account_group_by_name` through the owner filter. -/
theorem get_by_name_eq (db : DB) (nm u : String)
    (l : List AccountGroupRow) (hnm : ¬ nm = "")
    (h : db.account_groups.filter (fun g => g.user_id == u) = l) :
    get_account_group_by_name db nm u =
      l.find? (fun g => pyLower g.name == pyLower (pyStrip nm)) := by
  unfold get_account_group_by_name
  rw [if_neg hnm, find?_and_filter, h]

/-- The duplicate test of `create_account_group` through the owner
filter. -/
theorem group_any_eq (db : DB) (nm u : String)
    (l : List AccountGroupRow)
    (h : db.account_groups.filter (fun g => g.user_id == u) = l) :
    (db.account_groups.any (fun g =>
      pyLower g.name == pyLower (pyStrip nm) && g.user_id == u)) =
      l.any (fun g => pyLower g.name == pyLower (pyStrip nm)) := by
  rw [any_and_filter, h]

/-- Specification of `ensure_system_accounts` on states whose
system-account status is settled: it succeeds, touches only the account
tables and the id counter, and either finds the three system groups
(leaving groups and aliases unchanged) or creates exactly the three
default groups and aliases. -/
theorem ensure_spec (db : DB) (u : String) (hu : ¬ u = "")
    (hsys : SysEmpty db u ∨ SysFull db u) :
    ∃ m db', ensure_system_accounts db u = .ok (m, db') ∧
      db'.transactions = db.transactions ∧
      db'.journal_entries = db.journal_entries ∧
      db'.ledger_entries = db.ledger_entries ∧
      db.next_id ≤ db'.next_id ∧
      (∃ acc2, db'.accounts = db.accounts ++ acc2) ∧
      ((SysFull db u ∧ db'.account_groups = db.account_groups ∧
        db'.account_aliases = db.account_aliases) ∨
       (SysEmpty db u ∧
        db'.account_groups = db.account_groups ++
          [incomeGroup db.next_id u, expenseGroup (db.next_id + 2) u,
           cashGroup (db.next_id + 4) u] ∧
        db'.account_aliases = db.account_aliases ++
          [sysAlias (db.next_id + 1) "income" db.next_id u,
           sysAlias (db.next_id + 3) "expense" (db.next_id + 2) u,
           sysAlias (db.next_id + 5) "cash" (db.next_id + 4) u] ∧
        db.next_id + 6 ≤ db'.next_id)) := by
  rcases hsys with hsys | hsys
  · -- no groups yet: the three creates fire in order
    obtain ⟨hg0, ha0⟩ := hsys
    have hg0' : db.account_groups.filter (fun g => g.user_id == u) = [] :=
      hg0
    have hgI : get_account_group_by_name db "Income" u = none := by
      rw [get_by_name_eq db "Income" u [] (by decide) hg0']
      rfl
    have hcI : create_account_group db "Income" u .revenue
        (some "Default income account") true =
        .ok (incomeGroup db.next_id u,
          { db with
            account_groups :=
              db.account_groups ++ [incomeGroup db.next_id u],
            account_aliases := db.account_aliases ++
              [sysAlias (db.next_id + 1) "income" db.next_id u],
            next_id := db.next_id + 2 }) := by
      unfold create_account_group
      rw [if_neg (by decide : ¬ pyStrip "Income" = ""), if_neg hu,
        if_neg (by rw [group_any_eq db "Income" u [] hg0']; simp)]
      rfl
    set db1 : DB :=
      { db with
        account_groups := db.account_groups ++ [incomeGroup db.next_id u],
        account_aliases := db.account_aliases ++
          [sysAlias (db.next_id + 1) "income" db.next_id u],
        next_id := db.next_id + 2 } with hdb1
    have hflt1 : db1.account_groups.filter (fun g => g.user_id == u) =
        [incomeGroup db.next_id u] := by
      rw [hdb1]
      rw [List.filter_append, hg0']
      simp [incomeGroup]
    have hgE : get_account_group_by_name db1 "Expense" u = none := by
      rw [get_by_name_eq db1 "Expense" u _ (by decide) hflt1]
      have e1 : (pyLower "Income" == pyLower (pyStrip "Expense")) = false :=
        by decide
      simp [List.find?_cons, incomeGroup, e1]
    have hcE : create_account_group db1 "Expense" u .expense
        (some "Default expense account") true =
        .ok (expenseGroup (db.next_id + 2) u,
          { db1 with
            account_groups := db1.account_groups ++
              [expenseGroup (db.next_id + 2) u],
            account_aliases := db1.account_aliases ++
              [sysAlias (db.next_id + 3) "expense" (db.next_id + 2) u],
            next_id := db.next_id + 4 }) := by
      unfold create_account_group
      rw [if_neg (by decide : ¬ pyStrip "Expense" = ""), if_neg hu,
        if_neg (by
          rw [group_any_eq db1 "Expense" u _ hflt1]
          have e1 : (pyLower "Income" == pyLower (pyStrip "Expense")) =
            false := by decide
          simp [incomeGroup, e1])]
      rfl
    set db2 : DB :=
      { db1 with
        account_groups := db1.account_groups ++
          [expenseGroup (db.next_id + 2) u],
        account_aliases := db1.account_aliases ++
          [sysAlias (db.next_id + 3) "expense" (db.next_id + 2) u],
        next_id := db.next_id + 4 } with hdb2
    have hflt2 : db2.account_groups.filter (fun g => g.user_id == u) =
        [incomeGroup db.next_id u, expenseGroup (db.next_id + 2) u] := by
      rw [hdb2]
      show (db1.account_groups ++ _).filter _ = _
      rw [List.filter_append, hflt1]
      simp [expenseGroup]
    have hgC : get_account_group_by_name db2 "Cash" u = none := by
      rw [get_by_name_eq db2 "Cash" u _ (by decide) hflt2]
      have e1 : (pyLower "Income" == pyLower (pyStrip "Cash")) = false :=
        by decide
      have e2 : (pyLower "Expense" == pyLower (pyStrip "Cash")) = false :=
        by decide
      simp [List.find?_cons, incomeGroup, expenseGroup, e1, e2]
    have hcC : create_account_group db2 "Cash" u .asset
        (some "Default cash/wallet account") true =
        .ok (cashGroup (db.next_id + 4) u,
          { db2 with
            account_groups := db2.account_groups ++
              [cashGroup (db.next_id + 4) u],
            account_aliases := db2.account_aliases ++
              [sysAlias (db.next_id + 5) "cash" (db.next_id + 4) u],
            next_id := db.next_id + 6 }) := by
      unfold create_account_group
      rw [if_neg (by decide : ¬ pyStrip "Cash" = ""), if_neg hu,
        if_neg (by
          rw [group_any_eq db2 "Cash" u _ hflt2]
          have e1 : (pyLower "Income" == pyLower (pyStrip "Cash")) =
            false := by decide
          have e2 : (pyLower "Expense" == pyLower (pyStrip "Cash")) =
            false := by decide
          simp [incomeGroup, expenseGroup, e1, e2])]
      rfl
    set db3 : DB :=
      { db2 with
        account_groups := db2.account_groups ++
          [cashGroup (db.next_id + 4) u],
        account_aliases := db2.account_aliases ++
          [sysAlias (db.next_id + 5) "cash" (db.next_id + 4) u],
        next_id := db.next_id + 6 } with hdb3
    obtain ⟨aI, dbA, hA⟩ := get_or_create_isOk db3 "income" u .revenue
      (some "Default income account") true
      (some (incomeGroup db.next_id u).id) (by decide) hu
    have hAf := get_or_create_ok hA
    obtain ⟨aE, dbB, hB⟩ := get_or_create_isOk dbA "expense" u .expense
      (some "Default expense account") true
      (some (expenseGroup (db.next_id + 2) u).id) (by decide) hu
    have hBf := get_or_create_ok hB
    obtain ⟨aC, dbC, hC⟩ := get_or_create_isOk dbB "cash" u .asset
      (some "Default cash/wallet account") true
      (some (cashGroup (db.next_id + 4) u).id) (by decide) hu
    have hCf := get_or_create_ok hC
    refine ⟨(aI, aE, aC), dbC, ?_, ?_, ?_, ?_, ?_, ?_, ?_⟩
    · unfold ensure_system_accounts ensure_system_account_groups
      rw [hgI]
      dsimp only
      rw [hcI, ok_bind]
      dsimp only
      rw [hgE]
      dsimp only
      rw [hcE, ok_bind]
      dsimp only
      rw [hgC]
      dsimp only
      rw [hcC, ok_bind]
      dsimp only
      rw [pure_bind_except]
      dsimp only
      rw [hA, ok_bind]
      dsimp only
      rw [hB, ok_bind]
      dsimp only
      rw [hC, ok_bind]
      rfl
    · rw [hCf.2.2.1, hBf.2.2.1, hAf.2.2.1]
    · rw [hCf.2.2.2.1, hBf.2.2.2.1, hAf.2.2.2.1]
    · rw [hCf.2.2.2.2.1, hBf.2.2.2.2.1, hAf.2.2.2.2.1]
    · have h3 : db3.next_id = db.next_id + 6 := rfl
      have := hAf.2.2.2.2.2.1
      have := hBf.2.2.2.2.2.1
      have := hCf.2.2.2.2.2.1
      omega
    · obtain ⟨l1, e1⟩ := hAf.2.2.2.2.2.2
      obtain ⟨l2, e2⟩ := hBf.2.2.2.2.2.2
      obtain ⟨l3, e3⟩ := hCf.2.2.2.2.2.2
      refine ⟨l1 ++ l2 ++ l3, ?_⟩
      rw [e3, e2, e1]
      show (((db.accounts ++ l1) ++ l2) ++ l3) = _
      simp [List.append_assoc]
    · refine Or.inr ⟨⟨hg0, ha0⟩, ?_, ?_, ?_⟩
      · rw [hCf.1, hBf.1, hAf.1]
        show ((db.account_groups ++ _) ++ _) ++ _ = _
        simp [List.append_assoc]
      · rw [hCf.2.1, hBf.2.1, hAf.2.1]
        show ((db.account_aliases ++ _) ++ _) ++ _ = _
        simp [List.append_assoc]
      · have h3 : db3.next_id = db.next_id + 6 := rfl
        have := hAf.2.2.2.2.2.1
        have := hBf.2.2.2.2.2.1
        have := hCf.2.2.2.2.2.1
        omega
  · -- the three system groups already exist: all lookups hit
    obtain ⟨i1, i2, i3, j1, j2, j3, hgs, has⟩ := hsys
    have hgs' : db.account_groups.filter (fun g => g.user_id == u) =
        [incomeGroup i1 u, expenseGroup i2 u, cashGroup i3 u] := hgs
    have hgI : get_account_group_by_name db "Income" u =
        some (incomeGroup i1 u) := by
      rw [get_by_name_eq db "Income" u _ (by decide) hgs']
      have e0 : (pyLower "Income" == pyLower (pyStrip "Income")) = true :=
        by decide
      simp [List.find?_cons, incomeGroup, e0]
    have hgE : get_account_group_by_name db "Expense" u =
        some (expenseGroup i2 u) := by
      rw [get_by_name_eq db "Expense" u _ (by decide) hgs']
      have e1 : (pyLower "Income" == pyLower (pyStrip "Expense")) = false :=
        by decide
      have e2 : (pyLower "Expense" == pyLower (pyStrip "Expense")) = true :=
        by decide
      simp [List.find?_cons, incomeGroup, expenseGroup, e1, e2]
    have hgC : get_account_group_by_name db "Cash" u =
        some (cashGroup i3 u) := by
      rw [get_by_name_eq db "Cash" u _ (by decide) hgs']
      have e1 : (pyLower "Income" == pyLower (pyStrip "Cash")) = false :=
        by decide
      have e2 : (pyLower "Expense" == pyLower (pyStrip "Cash")) = false :=
        by decide
      have e3 : (pyLower "Cash" == pyLower (pyStrip "Cash")) = true :=
        by decide
      simp [List.find?_cons, incomeGroup, expenseGroup, cashGroup, e1, e2,
        e3]
    obtain ⟨aI, dbA, hA⟩ := get_or_create_isOk db "income" u .revenue
      (some "Default income account") true
      (some (incomeGroup i1 u).id) (by decide) hu
    have hAf := get_or_create_ok hA
    obtain ⟨aE, dbB, hB⟩ := get_or_create_isOk dbA "expense" u .expense
      (some "Default expense account") true
      (some (expenseGroup i2 u).id) (by decide) hu
    have hBf := get_or_create_ok hB
    obtain ⟨aC, dbC, hC⟩ := get_or_create_isOk dbB "cash" u .asset
      (some "Default cash/wallet account") true
      (some (cashGroup i3 u).id) (by decide) hu
    have hCf := get_or_create_ok hC
    refine ⟨(aI, aE, aC), dbC, ?_, ?_, ?_, ?_, ?_, ?_, ?_⟩
    · unfold ensure_system_accounts ensure_system_account_groups
      rw [hgI]
      dsimp only
      rw [pure_bind_except]
      dsimp only
      rw [hgE]
      dsimp only
      rw [pure_bind_except]
      dsimp only
      rw [hgC]
      dsimp only
      rw [pure_bind_except]
      dsimp only
      rw [pure_bind_except]
      dsimp only
      rw [hA, ok_bind]
      dsimp only
      rw [hB, ok_bind]
      dsimp only
      rw [hC, ok_bind]
      rfl
    · rw [hCf.2.2.1, hBf.2.2.1, hAf.2.2.1]
    · rw [hCf.2.2.2.1, hBf.2.2.2.1, hAf.2.2.2.1]
    · rw [hCf.2.2.2.2.1, hBf.2.2.2.2.1, hAf.2.2.2.2.1]
    · have := hAf.2.2.2.2.2.1
      have := hBf.2.2.2.2.2.1
      have := hCf.2.2.2.2.2.1
      omega
    · obtain ⟨l1, e1⟩ := hAf.2.2.2.2.2.2
      obtain ⟨l2, e2⟩ := hBf.2.2.2.2.2.2
      obtain ⟨l3, e3⟩ := hCf.2.2.2.2.2.2
      refine ⟨l1 ++ l2 ++ l3, ?_⟩
      rw [e3, e2, e1]
      simp [List.append_assoc]
    · refine Or.inl ⟨⟨i1, i2, i3, j1, j2, j3, hgs, has⟩, ?_, ?_⟩
      · rw [hCf.1, hBf.1, hAf.1]
      · rw [hCf.2.1, hBf.2.1, hAf.2.1]

/-! ## The reachability invariant -/

/-- The journal entries of one transaction, in table order. -/
def txn_entries (db : DB) (tid : Nat) : List JournalRow :=
  db.journal_entries.filter (fun j => j.transaction_id == tid)

/-- A balanced double-entry pair: exactly one debit and one credit
journal entry, in this order, with the same amount. -/
def BalancedPair (l : List JournalRow) : Prop :=
  ∃ jd jc, l = [jd, jc] ∧ jd.entry_type = .debit ∧
    jc.entry_type = .credit ∧ jd.amount = jc.amount

/-- The invariant of every state reachable from the empty database
through `insert` (post), `update_transaction` and `delete_entry`. -/
structure Inv (db : DB) : Prop where
  txn_pos : ∀ t ∈ db.transactions, 0 < t.id
  txn_lt : ∀ t ∈ db.transactions, t.id < db.next_id
  txns_nodup : (db.transactions.map (fun t => t.id)).Nodup
  group_lt : ∀ g ∈ db.account_groups, g.id < db.next_id
  groups_nodup : (db.account_groups.map (fun g => g.id)).Nodup
  alias_lt : ∀ a ∈ db.account_aliases, a.group_id < db.next_id
  journal_txn : ∀ j ∈ db.journal_entries, ∃ t ∈ db.transactions,
    t.id = j.transaction_id
  pairs : ∀ t ∈ db.transactions, BalancedPair (txn_entries db t.id)
  ledger_txn : ∀ l ∈ db.ledger_entries, ∃ t ∈ db.transactions,
    t.id = l.transaction_id ∧ t.user_id = l.user_id
  ledger_tids_nodup :
    (db.ledger_entries.map (fun l => l.transaction_id)).Nodup
  sys : ∀ u, SysEmpty db u ∨ SysFull db u
  txn_sys : ∀ t ∈ db.transactions, SysFull db t.user_id
  display : ∀ j ∈ db.journal_entries, ∀ t ∈ db.transactions,
    t.id = j.transaction_id →
    alias_display_name db t.user_id j.account_name = j.account_name
  next_pos : 0 < db.next_id

/-- The empty database satisfies the invariant. -/
theorem inv_empty : Inv emptyDB := by
  constructor <;> intros <;> simp_all [emptyDB, SysEmpty, groups_of,
    aliases_of]

/-- `delete_entry` preserves the invariant. -/
theorem delete_inv {db : DB} {eid : Nat} {u : String} {b : Bool}
    {db' : DB} (hInv : Inv db)
    (h : delete_entry db eid u = .ok (b, db')) : Inv db' := by
  unfold delete_entry at h
  split at h
  · cases h
  split at h
  · cases h
  split at h
  · -- ledger row not found
    cases h
    exact hInv
  rename_i row hrow
  split at h
  · cases h
    exact hInv
  cases h
  -- the found row's transaction exists and is positive, so the cascade
  -- branch is taken
  have hrmem : row ∈ db.ledger_entries := List.mem_of_find?_eq_some hrow
  obtain ⟨t0, ht0mem, ht0id, ht0u⟩ := hInv.ledger_txn row hrmem
  have htpos : 0 < row.transaction_id := ht0id ▸ hInv.txn_pos t0 ht0mem
  have hbr : row.transaction_id ≠ 0 := by omega
  rw [if_pos hbr]
  set tid0 := row.transaction_id with htid0
  dsimp only
  constructor
  · intro t ht
    exact hInv.txn_pos t (List.mem_of_mem_filter ht)
  · intro t ht
    exact hInv.txn_lt t (List.mem_of_mem_filter ht)
  · exact List.Nodup.sublist
      (List.Sublist.map _ (List.filter_sublist _)) hInv.txns_nodup
  · intro g hg
    exact hInv.group_lt g hg
  · exact hInv.groups_nodup
  · intro a ha
    exact hInv.alias_lt a ha
  · intro j hj
    have hjmem := List.mem_of_mem_filter hj
    have hjt := (List.mem_filter.mp hj).2
    obtain ⟨t, htm, hti⟩ := hInv.journal_txn j hjmem
    refine ⟨t, List.mem_filter.mpr ⟨htm, ?_⟩, hti⟩
    simp only [Bool.not_eq_eq_eq_not, Bool.not_true, beq_eq_false_iff_ne]
    simp only [Bool.not_eq_eq_eq_not, Bool.not_true,
      beq_eq_false_iff_ne] at hjt
    omega
  · intro t ht
    have htm := List.mem_of_mem_filter ht
    have htne := (List.mem_filter.mp ht).2
    have hne : t.id ≠ tid0 := by
      simp only [Bool.not_eq_eq_eq_not, Bool.not_true,
        beq_eq_false_iff_ne] at htne
      exact htne
    obtain ⟨jd, jc, hl, hd, hc, ha⟩ := hInv.pairs t htm
    refine ⟨jd, jc, ?_, hd, hc, ha⟩
    unfold txn_entries at hl ⊢
    show (db.journal_entries.filter
      (fun j => !(j.transaction_id == tid0))).filter
      (fun j => j.transaction_id == t.id) = [jd, jc]
    rw [List.filter_filter]
    rw [← hl]
    apply List.filter_congr
    intro x _
    by_cases hx : x.transaction_id = t.id
    · simp [hx, hne]
    · simp [hx]
  · intro l hl
    have hlm := List.mem_of_mem_filter hl
    have hlne := (List.mem_filter.mp hl).2
    obtain ⟨t, htm, hti, htu⟩ := hInv.ledger_txn l hlm
    refine ⟨t, List.mem_filter.mpr ⟨htm, ?_⟩, hti, htu⟩
    simp only [Bool.not_eq_eq_eq_not, Bool.not_true, beq_eq_false_iff_ne]
    -- if t were the deleted transaction, l and the deleted row would be
    -- two ledger rows with the same transaction id
    intro hcontra
    have hlid : l.transaction_id = row.transaction_id := by
      rw [← hti, hcontra]
    have hlrow : l = row :=
      List.inj_on_of_nodup_map hInv.ledger_tids_nodup hlm hrmem hlid
    have hpred := List.find?_some hrow
    simp only [beq_iff_eq] at hpred
    have hid : row.id = eid := hpred
    rw [hlrow] at hlne
    simp only [Bool.not_eq_eq_eq_not, Bool.not_true,
      beq_eq_false_iff_ne] at hlne
    exact hlne hid
  · exact List.Nodup.sublist
      (List.Sublist.map _ (List.filter_sublist _)) hInv.ledger_tids_nodup
  · intro v
    have := hInv.sys v
    unfold SysEmpty SysFull groups_of aliases_of at this ⊢
    exact this
  · intro t ht
    have := hInv.txn_sys t (List.mem_of_mem_filter ht)
    unfold SysFull groups_of aliases_of at this ⊢
    exact this
  · intro j hj t ht hjt
    have hd := hInv.display j (List.mem_of_mem_filter hj) t
      (List.mem_of_mem_filter ht) hjt
    exact (alias_display_name_congr db _ rfl rfl t.user_id
      j.account_name).trans hd
  · exact hInv.next_pos

/-- Filtering a mapped list when the map preserves the predicate. -/
theorem filter_map_pred {α : Type} (f : α → α) (p : α → Bool) (l : List α)
    (h : ∀ x, p (f x) = p x) :
    (l.map f).filter p = (l.filter p).map f := by
  induction l with
  | nil => rfl
  | cons x xs ih =>
    simp only [List.map_cons, List.filter_cons, h x]
    by_cases hx : p x
    · simp [hx, ih]
    · simp [hx, ih]

/-- Mapping a key over a mapped list when the map preserves the key. -/
theorem map_key_eq {α κ : Type} (f : α → α) (key : α → κ) (l : List α)
    (h : ∀ x, key (f x) = key x) :
    (l.map f).map key = l.map key := by
  rw [List.map_map]
  exact List.map_congr_left (fun x _ => h x)

/-- Under `SysFull`, a name whose normalization is none of the three
system aliases does not resolve. -/
theorem sysfull_resolve_none (db : DB) (u n : String) (hs : SysFull db u)
    (h1 : ¬ stripLower n = "income") (h2 : ¬ stripLower n = "expense")
    (h3 : ¬ stripLower n = "cash") :
    resolve_account_alias db n u = none := by
  obtain ⟨i1, i2, i3, j1, j2, j3, hgs, has⟩ := hs
  have has' : db.account_aliases.filter (fun a => a.user_id == u) =
      [sysAlias j1 "income" i1 u, sysAlias j2 "expense" i2 u,
       sysAlias j3 "cash" i3 u] := has
  unfold resolve_account_alias
  by_cases hn : n = ""
  · rw [if_pos hn]
  rw [if_neg hn, find?_and_filter, has']
  have e1 : (("income" : String) == stripLower n) = false :=
    beq_eq_false_iff_ne.mpr (fun h => h1 h.symm)
  have e2 : (("expense" : String) == stripLower n) = false :=
    beq_eq_false_iff_ne.mpr (fun h => h2 h.symm)
  have e3 : (("cash" : String) == stripLower n) = false :=
    beq_eq_false_iff_ne.mpr (fun h => h3 h.symm)
  simp [List.find?_cons, sysAlias, e1, e2, e3]

/-- Under `SysFull`, an account name produced by the update path (a
resolved canonical name, a raw unresolved name, or the `"Unknown"`
placeholder) is its own display name. -/
theorem update_name_display (db : DB) (u : String)
    (final_name : Option String) (hs : SysFull db u)
    (hnd : (db.account_groups.map (fun g => g.id)).Nodup) :
    alias_display_name db u
      (pyOr (match (if optTruthy final_name then
          resolve_account_alias db (pyOr final_name "") u
        else none) with
        | some g => some g.name
        | none => final_name) "Unknown") =
      (pyOr (match (if optTruthy final_name then
          resolve_account_alias db (pyOr final_name "") u
        else none) with
        | some g => some g.name
        | none => final_name) "Unknown") := by
  by_cases ht : optTruthy final_name
  · rw [if_pos ht]
    cases hres : resolve_account_alias db (pyOr final_name "") u with
    | some g =>
      obtain ⟨⟨i, hg⟩, _⟩ := sysfull_resolve db u _ g hs hnd hres
      have hname : g.name = "Income" ∨ g.name = "Expense" ∨
          g.name = "Cash" := by
        rcases hg with h | h | h <;> subst h <;>
          simp [incomeGroup, expenseGroup, cashGroup]
      have hne : ¬ g.name = "" := by
        rcases hname with h | h | h <;> rw [h] <;> decide
      have hpy : pyOr (some g.name) "Unknown" = g.name := by
        unfold pyOr
        dsimp only
        rw [if_neg hne]
      dsimp only
      rw [hpy]
      exact sysfull_display_canonical db u g.name hs hnd hname
    | none =>
      dsimp only
      cases final_name with
      | none => simp [optTruthy] at ht
      | some s =>
        have hsne : ¬ s = "" := by
          simp [optTruthy] at ht
          exact ht
        have hpo : pyOr (some s) "" = s := by
          unfold pyOr
          dsimp only
          rw [if_neg hsne]
        have hpu : pyOr (some s) "Unknown" = s := by
          unfold pyOr
          dsimp only
          rw [if_neg hsne]
        rw [hpu]
        rw [hpo] at hres
        exact sysfull_display_raw db u s hs hnd hres
  · rw [if_neg ht]
    have hpu : pyOr final_name "Unknown" = "Unknown" := by
      cases final_name with
      | none => rfl
      | some s =>
        have : s = "" := by
          simp [optTruthy] at ht
          exact ht
        subst this
        rfl
    dsimp only
    rw [hpu]
    apply sysfull_display_raw db u "Unknown" hs hnd
    apply sysfull_resolve_none db u "Unknown" hs <;> decide

/-- `update_journal_row` preserves the transaction id. -/
theorem update_journal_row_tid (tid : Nat) (fa : Rat)
    (dn cn : Option String) (je : JournalRow) :
    (update_journal_row tid fa dn cn je).transaction_id =
      je.transaction_id := by
  unfold update_journal_row
  by_cases hx : (je.transaction_id == tid) = true <;>
    by_cases hy : (je.entry_type == EntryType.debit) = true <;>
    simp [hx, hy]

/-- `update_journal_row` preserves the entry type. -/
theorem update_journal_row_type (tid : Nat) (fa : Rat)
    (dn cn : Option String) (je : JournalRow) :
    (update_journal_row tid fa dn cn je).entry_type = je.entry_type := by
  unfold update_journal_row
  by_cases hx : (je.transaction_id == tid) = true <;>
    by_cases hy : (je.entry_type == EntryType.debit) = true <;>
    simp [hx, hy]

/-- `update_journal_row` on the debit entry of the updated
transaction. -/
theorem update_journal_row_eq_debit (tid : Nat) (fa : Rat)
    (dn cn : Option String) (je : JournalRow)
    (h1 : (je.transaction_id == tid) = true)
    (h2 : (je.entry_type == EntryType.debit) = true) :
    update_journal_row tid fa dn cn je =
      { je with amount := fa, account_name := pyOr dn "Unknown" } := by
  unfold update_journal_row
  rw [h1, h2, if_pos rfl, if_pos rfl]

/-- `update_journal_row` on the credit entry of the updated
transaction. -/
theorem update_journal_row_eq_credit (tid : Nat) (fa : Rat)
    (dn cn : Option String) (je : JournalRow)
    (h1 : (je.transaction_id == tid) = true)
    (h2 : (je.entry_type == EntryType.debit) = false) :
    update_journal_row tid fa dn cn je =
      { je with amount := fa, account_name := pyOr cn "Unknown" } := by
  unfold update_journal_row
  rw [h1, h2, if_pos rfl, if_neg Bool.false_ne_true]

/-- `update_journal_row` on entries of other transactions. -/
theorem update_journal_row_eq_other (tid : Nat) (fa : Rat)
    (dn cn : Option String) (je : JournalRow)
    (h1 : (je.transaction_id == tid) = false) :
    update_journal_row tid fa dn cn je = je := by
  unfold update_journal_row
  rw [h1, if_neg Bool.false_ne_true]

/-- `update_txn_row` preserves the id. -/
theorem update_txn_row_id (tid : Nat) (fd : Option String)
    (t : TransactionRow) : (update_txn_row tid fd t).id = t.id := by
  unfold update_txn_row
  by_cases hx : (t.id == tid) = true <;> simp [hx]

/-- `update_txn_row` preserves the owner. -/
theorem update_txn_row_user (tid : Nat) (fd : Option String)
    (t : TransactionRow) :
    (update_txn_row tid fd t).user_id = t.user_id := by
  unfold update_txn_row
  by_cases hx : (t.id == tid) = true <;> simp [hx]

/-- `update_ledger_row` preserves the transaction id. -/
theorem update_ledger_row_tid (lid : Nat) (fa : Rat)
    (fs fd fdesc : Option String) (l : LedgerRow) :
    (update_ledger_row lid fa fs fd fdesc l).transaction_id =
      l.transaction_id := by
  unfold update_ledger_row
  by_cases hx : (l.id == lid) = true <;> simp [hx]

/-- `update_ledger_row` preserves the owner. -/
theorem update_ledger_row_user (lid : Nat) (fa : Rat)
    (fs fd fdesc : Option String) (l : LedgerRow) :
    (update_ledger_row lid fa fs fd fdesc l).user_id = l.user_id := by
  unfold update_ledger_row
  by_cases hx : (l.id == lid) = true <;> simp [hx]

/-- `update_transaction` preserves the invariant. -/
theorem update_inv {db : DB} {tid : Nat} {u : String} {na : Option Rat}
    {ns nd nde : Option String} {res : Option TransactionRow} {db' : DB}
    (hInv : Inv db)
    (h : update_transaction db tid u na ns nd nde = .ok (res, db')) :
    Inv db' := by
  unfold update_transaction at h
  split at h
  · cases h
  split at h
  · cases h
  split at h
  · cases h
  split at h
  · cases h
    exact hInv
  rename_i txn_row hfind
  split at h
  · cases h
    exact hInv
  rename_i ledger_row hlfind
  cases h
  have hmem_txn : txn_row ∈ db.transactions :=
    List.mem_of_find?_eq_some hfind
  have hpred_txn := List.find?_some hfind
  simp only [Bool.and_eq_true, beq_iff_eq] at hpred_txn
  obtain ⟨htid_eq, huser_eq⟩ := hpred_txn
  have hSys : SysFull db u := huser_eq ▸ hInv.txn_sys txn_row hmem_txn
  have hnd := hInv.groups_nodup
  constructor
  · intro t' ht'
    obtain ⟨t, ht, rfl⟩ := List.mem_map.mp ht'
    rw [update_txn_row_id]
    exact hInv.txn_pos t ht
  · intro t' ht'
    obtain ⟨t, ht, rfl⟩ := List.mem_map.mp ht'
    rw [update_txn_row_id]
    exact hInv.txn_lt t ht
  · rw [map_key_eq _ _ _ (update_txn_row_id tid _)]
    exact hInv.txns_nodup
  · exact hInv.group_lt
  · exact hInv.groups_nodup
  · exact hInv.alias_lt
  · intro j' hj'
    obtain ⟨j, hj, rfl⟩ := List.mem_map.mp hj'
    obtain ⟨t, ht, hti⟩ := hInv.journal_txn j hj
    refine ⟨update_txn_row tid _ t, List.mem_map_of_mem _ ht, ?_⟩
    rw [update_txn_row_id, update_journal_row_tid]
    exact hti
  · intro t' ht'
    obtain ⟨t, ht, rfl⟩ := List.mem_map.mp ht'
    obtain ⟨jd, jc, hl, hd, hc, ha⟩ := hInv.pairs t ht
    have hjd_tid : jd.transaction_id = t.id := by
      have hm : jd ∈ txn_entries db t.id := by rw [hl]; simp
      have := (List.mem_filter.mp hm).2
      simpa using this
    have hjc_tid : jc.transaction_id = t.id := by
      have hm : jc ∈ txn_entries db t.id := by rw [hl]; simp
      have := (List.mem_filter.mp hm).2
      simpa using this
    unfold txn_entries
    dsimp only
    rw [update_txn_row_id]
    rw [filter_map_pred]
    · rw [show db.journal_entries.filter
          (fun j => j.transaction_id == t.id) = [jd, jc] from hl]
      by_cases hx : t.id = tid
      · have hyd : (jd.transaction_id == tid) = true := by
          rw [hjd_tid, hx]
          simp
        have hyc : (jc.transaction_id == tid) = true := by
          rw [hjc_tid, hx]
          simp
        have hzd : (jd.entry_type == EntryType.debit) = true := by
          rw [hd]
          decide
        have hzc : (jc.entry_type == EntryType.debit) = false := by
          rw [hc]
          decide
        refine ⟨_, _, rfl, ?_, ?_, ?_⟩
        · rw [update_journal_row_eq_debit _ _ _ _ _ hyd hzd]
          exact hd
        · rw [update_journal_row_eq_credit _ _ _ _ _ hyc hzc]
          exact hc
        · rw [update_journal_row_eq_debit _ _ _ _ _ hyd hzd,
            update_journal_row_eq_credit _ _ _ _ _ hyc hzc]
      · have hyd : (jd.transaction_id == tid) = false := by
          rw [hjd_tid]
          exact beq_eq_false_iff_ne.mpr hx
        have hyc : (jc.transaction_id == tid) = false := by
          rw [hjc_tid]
          exact beq_eq_false_iff_ne.mpr hx
        refine ⟨jd, jc, ?_, hd, hc, ha⟩
        rw [List.map_cons, List.map_cons, List.map_nil,
          update_journal_row_eq_other _ _ _ _ _ hyd,
          update_journal_row_eq_other _ _ _ _ _ hyc]
    · intro x
      rw [update_journal_row_tid]
  · intro l' hl'
    obtain ⟨l, hlm, rfl⟩ := List.mem_map.mp hl'
    obtain ⟨t, ht, hti, htu⟩ := hInv.ledger_txn l hlm
    refine ⟨update_txn_row tid _ t, List.mem_map_of_mem _ ht, ?_, ?_⟩
    · rw [update_txn_row_id, update_ledger_row_tid]
      exact hti
    · rw [update_txn_row_user, update_ledger_row_user]
      exact htu
  · rw [map_key_eq _ _ _ (update_ledger_row_tid ledger_row.id _ _ _ _)]
    exact hInv.ledger_tids_nodup
  · intro v
    have hv := hInv.sys v
    unfold SysEmpty SysFull groups_of aliases_of at hv ⊢
    exact hv
  · intro t' ht'
    obtain ⟨t, ht, rfl⟩ := List.mem_map.mp ht'
    have hv := hInv.txn_sys t ht
    rw [update_txn_row_user]
    unfold SysFull groups_of aliases_of at hv ⊢
    exact hv
  · intro j' hj' t' ht' hjt
    obtain ⟨j, hj, rfl⟩ := List.mem_map.mp hj'
    obtain ⟨t, ht, rfl⟩ := List.mem_map.mp ht'
    rw [update_txn_row_id, update_journal_row_tid] at hjt
    rw [update_txn_row_user]
    have hcongr := fun n => alias_display_name_congr db _ rfl rfl
      t.user_id n
    by_cases hy : (j.transaction_id == tid) = true
    · have htid2 : t.id = tid := by
        rw [hjt]
        exact beq_iff_eq.mp hy
      have hteq : t = txn_row :=
        List.inj_on_of_nodup_map hInv.txns_nodup ht hmem_txn
          (by rw [htid2, htid_eq])
      have htu : t.user_id = u := by rw [hteq, huser_eq]
      rw [htu]
      by_cases hz : (j.entry_type == EntryType.debit) = true
      · rw [update_journal_row_eq_debit _ _ _ _ _ hy hz]
        dsimp only
        refine (alias_display_name_congr db _ rfl rfl u _).trans ?_
        exact update_name_display db u
          (orCurrent nd ledger_row.destination) hSys hnd
      · rw [update_journal_row_eq_credit _ _ _ _ _ hy
          (by simpa using hz)]
        dsimp only
        refine (alias_display_name_congr db _ rfl rfl u _).trans ?_
        exact update_name_display db u
          (orCurrent ns ledger_row.source) hSys hnd
    · rw [update_journal_row_eq_other _ _ _ _ _ (by simpa using hy)]
      exact (alias_display_name_congr db _ rfl rfl t.user_id
        j.account_name).trans (hInv.display j hj t ht hjt)
  · exact hInv.next_pos

/-- `insert` preserves the invariant. -/
theorem insert_inv {db : DB} {parsed : ParsedTransaction}
    {uid cid mid : String} {gid : Option String} {conf : Bool} {now : Nat}
    {le : LedgerRow} {db' : DB} (hInv : Inv db)
    (h : insert db parsed uid cid mid gid conf now = .ok (le, db')) :
    Inv db' := by
  unfold insert at h
  by_cases hu : uid = ""
  · rw [if_pos hu] at h
    cases h
  rw [if_neg hu] at h
  split at h
  · cases h
  split at h
  · cases h
  split at h
  · cases h
  split at h
  · cases h
  split at h
  · cases h
  obtain ⟨msys, db1, hens, hT1, hJ1, hL1, hN1, ⟨acc1, hA1⟩, hcase⟩ :=
    ensure_spec db uid hu (hInv.sys uid)
  rw [hens] at h
  dsimp only at h
  revert h
  generalize hds : derive_sides parsed = ds
  obtain ⟨dn, cn, dt, ct⟩ := ds
  intro h
  dsimp only at h
  split at h
  · cases h
  rename_i debit_account db2 hga
  split at h
  · cases h
  rename_i credit_account db3 hgc
  cases h
  obtain ⟨hG2, hA2, hT2, hJ2, hL2, hN2, -⟩ := get_or_create_ok hga
  obtain ⟨hG3, hA3, hT3, hJ3, hL3, hN3, -⟩ := get_or_create_ok hgc
  have hG : db3.account_groups = db1.account_groups := by rw [hG3, hG2]
  have hA : db3.account_aliases = db1.account_aliases := by rw [hA3, hA2]
  have hT : db3.transactions = db.transactions := by rw [hT3, hT2, hT1]
  have hJ : db3.journal_entries = db.journal_entries := by
    rw [hJ3, hJ2, hJ1]
  have hL : db3.ledger_entries = db.ledger_entries := by
    rw [hL3, hL2, hL1]
  have hN : db.next_id ≤ db3.next_id := le_trans hN1 (le_trans hN2 hN3)
  have hN1' : db1.next_id ≤ db3.next_id := le_trans hN2 hN3
  -- the shared facts about the post-ensure state
  have hSys1 : SysFull db1 uid := by
    rcases hcase with ⟨hfull, hGe, hAe⟩ | ⟨hempty, hGe, hAe, hN6⟩
    · exact sysFull_congr db db1 hAe hGe uid hfull
    · refine ⟨db.next_id, db.next_id + 2, db.next_id + 4,
        db.next_id + 1, db.next_id + 3, db.next_id + 5, ?_, ?_⟩
      · have h0 : db.account_groups.filter (fun g => g.user_id == uid) =
            [] := hempty.1
        unfold groups_of
        rw [hGe, List.filter_append, h0]
        simp [incomeGroup, expenseGroup, cashGroup]
      · have h0 : db.account_aliases.filter (fun a => a.user_id == uid) =
            [] := hempty.2
        unfold aliases_of
        rw [hAe, List.filter_append, h0]
        simp [sysAlias]
  have hnd1 : (db1.account_groups.map (fun g => g.id)).Nodup := by
    rcases hcase with ⟨hfull, hGe, hAe⟩ | ⟨hempty, hGe, hAe, hN6⟩
    · rw [hGe]
      exact hInv.groups_nodup
    · rw [hGe, List.map_append, List.nodup_append]
      have hids : List.map (fun g => g.id)
          [incomeGroup db.next_id uid, expenseGroup (db.next_id + 2) uid,
           cashGroup (db.next_id + 4) uid] =
          [db.next_id, db.next_id + 2, db.next_id + 4] := rfl
      refine ⟨hInv.groups_nodup, ?_, ?_⟩
      · rw [hids, List.nodup_cons, List.nodup_cons]
        refine ⟨?_, ?_, List.nodup_singleton _⟩
        · simp only [List.mem_cons, List.not_mem_nil, or_false]
          omega
        · simp only [List.mem_singleton]
          omega
      · intro x hx1 hx2
        obtain ⟨g, hg, rfl⟩ := List.mem_map.mp hx1
        have hlt := hInv.group_lt g hg
        rw [hids] at hx2
        simp only [List.mem_cons, List.not_mem_nil, or_false] at hx2
        omega
  have hglt1 : ∀ g ∈ db1.account_groups, g.id < db1.next_id := by
    rcases hcase with ⟨hfull, hGe, hAe⟩ | ⟨hempty, hGe, hAe, hN6⟩
    · intro g hg
      rw [hGe] at hg
      exact lt_of_lt_of_le (hInv.group_lt g hg) hN1
    · intro g hg
      rw [hGe] at hg
      rcases List.mem_append.mp hg with hold | hnew
      · have := hInv.group_lt g hold
        omega
      · have : g.id = db.next_id ∨ g.id = db.next_id + 2 ∨
            g.id = db.next_id + 4 := by
          simp only [List.mem_cons, List.not_mem_nil, or_false] at hnew
          rcases hnew with rfl | rfl | rfl
          · exact Or.inl rfl
          · exact Or.inr (Or.inl rfl)
          · exact Or.inr (Or.inr rfl)
        omega
  have halt1 : ∀ a ∈ db1.account_aliases, a.group_id < db1.next_id := by
    rcases hcase with ⟨hfull, hGe, hAe⟩ | ⟨hempty, hGe, hAe, hN6⟩
    · intro a ha
      rw [hAe] at ha
      exact lt_of_lt_of_le (hInv.alias_lt a ha) hN1
    · intro a ha
      rw [hAe] at ha
      rcases List.mem_append.mp ha with hold | hnew
      · have := hInv.alias_lt a hold
        omega
      · have : a.group_id = db.next_id ∨ a.group_id = db.next_id + 2 ∨
            a.group_id = db.next_id + 4 := by
          simp only [List.mem_cons, List.not_mem_nil, or_false] at hnew
          rcases hnew with rfl | rfl | rfl
          · exact Or.inl rfl
          · exact Or.inr (Or.inl rfl)
          · exact Or.inr (Or.inr rfl)
        omega
  have hne_of_full : ∀ v, SysFull db v → SysEmpty db uid → v ≠ uid := by
    intro v hv he hvu
    subst hvu
    obtain ⟨i1, i2, i3, j1, j2, j3, hg', _⟩ := hv
    rw [he.1] at hg'
    exact absurd hg' (by simp)
  have hsys_all1 : ∀ v, SysEmpty db1 v ∨ SysFull db1 v := by
    rcases hcase with ⟨hfull, hGe, hAe⟩ | ⟨hempty, hGe, hAe, hN6⟩
    · intro v
      rcases hInv.sys v with hv | hv
      · refine Or.inl ⟨?_, ?_⟩
        · unfold groups_of
          rw [hGe]
          exact hv.1
        · unfold aliases_of
          rw [hAe]
          exact hv.2
      · exact Or.inr (sysFull_congr db db1 hAe hGe v hv)
    · intro v
      by_cases hvu : v = uid
      · subst hvu
        exact Or.inr hSys1
      · have hgv : groups_of db1 v = groups_of db v := by
          unfold groups_of
          rw [hGe]
          apply filter_append_right_nil
          intro x hx
          have hxu : x.user_id = uid := by
            simp only [List.mem_cons, List.not_mem_nil, or_false] at hx
            rcases hx with rfl | rfl | rfl
            · rfl
            · rfl
            · rfl
          rw [hxu]
          exact beq_eq_false_iff_ne.mpr (fun h0 => hvu h0.symm)
        have hav : aliases_of db1 v = aliases_of db v := by
          unfold aliases_of
          rw [hAe]
          apply filter_append_right_nil
          intro x hx
          have hxu : x.user_id = uid := by
            simp only [List.mem_cons, List.not_mem_nil, or_false] at hx
            rcases hx with rfl | rfl | rfl
            · rfl
            · rfl
            · rfl
          rw [hxu]
          exact beq_eq_false_iff_ne.mpr (fun h0 => hvu h0.symm)
        rcases hInv.sys v with ⟨h1, h2⟩ |
          ⟨i1, i2, i3, j1, j2, j3, h1, h2⟩
        · exact Or.inl ⟨hgv.trans h1, hav.trans h2⟩
        · exact Or.inr ⟨i1, i2, i3, j1, j2, j3, hgv.trans h1,
            hav.trans h2⟩
  have htxnsys1 : ∀ t ∈ db.transactions, SysFull db1 t.user_id := by
    intro t ht
    have hfull_t := hInv.txn_sys t ht
    rcases hcase with ⟨hfull, hGe, hAe⟩ | ⟨hempty, hGe, hAe, hN6⟩
    · exact sysFull_congr db db1 hAe hGe t.user_id hfull_t
    · have hvu := hne_of_full t.user_id hfull_t hempty
      rcases hsys_all1 t.user_id with hv | hv
      · exfalso
        obtain ⟨i1, i2, i3, j1, j2, j3, hg', _⟩ := hfull_t
        have hgv : groups_of db1 t.user_id = groups_of db t.user_id := by
          unfold groups_of
          rw [hGe]
          apply filter_append_right_nil
          intro x hx
          have hxu : x.user_id = uid := by
            simp only [List.mem_cons, List.not_mem_nil, or_false] at hx
            rcases hx with rfl | rfl | rfl
            · rfl
            · rfl
            · rfl
          rw [hxu]
          exact beq_eq_false_iff_ne.mpr (fun h0 => hvu h0.symm)
        have h00 : groups_of db t.user_id = [] := hgv.symm.trans hv.1
        rw [hg'] at h00
        exact absurd h00 (by simp)
      · exact hv
  have hdisp1 : ∀ v n, (∃ t ∈ db.transactions, t.user_id = v) →
      alias_display_name db1 v n = alias_display_name db v n := by
    intro v n ⟨t, ht, htv⟩
    rcases hcase with ⟨hfull, hGe, hAe⟩ | ⟨hempty, hGe, hAe, hN6⟩
    · exact alias_display_name_congr db db1 hAe hGe v n
    · have hvu : v ≠ uid := by
        rw [← htv]
        exact hne_of_full t.user_id (hInv.txn_sys t ht) hempty
      refine alias_display_append db db1 v n _ _ hGe hAe ?_
        hInv.alias_lt ?_
      · intro a ha
        have hxu : a.user_id = uid := by
          simp only [List.mem_cons, List.not_mem_nil, or_false] at ha
          rcases ha with rfl | rfl | rfl
          · rfl
          · rfl
          · rfl
        rw [hxu]
        exact fun h0 => hvu h0.symm
      · intro g hg
        have : g.id = db.next_id ∨ g.id = db.next_id + 2 ∨
            g.id = db.next_id + 4 := by
          simp only [List.mem_cons, List.not_mem_nil, or_false] at hg
          rcases hg with rfl | rfl | rfl
          · exact Or.inl rfl
          · exact Or.inr (Or.inl rfl)
          · exact Or.inr (Or.inr rfl)
        omega
  constructor
  · -- txn_pos
    intro t ht
    rcases List.mem_append.mp ht with hto | htn
    · rw [hT] at hto
      exact hInv.txn_pos t hto
    · rw [List.mem_singleton] at htn
      subst htn
      show 0 < db3.next_id
      exact lt_of_lt_of_le hInv.next_pos hN
  · -- txn_lt
    intro t ht
    rcases List.mem_append.mp ht with hto | htn
    · rw [hT] at hto
      have := hInv.txn_lt t hto
      show t.id < db3.next_id + 4
      omega
    · rw [List.mem_singleton] at htn
      subst htn
      show db3.next_id < db3.next_id + 4
      omega
  · -- txns_nodup
    dsimp only
    rw [hT, List.map_append, List.nodup_append]
    refine ⟨hInv.txns_nodup, List.nodup_singleton _, ?_⟩
    intro x hx1 hx2
    obtain ⟨t, ht, rfl⟩ := List.mem_map.mp hx1
    have h1 := hInv.txn_lt t ht
    have h2 : t.id = db3.next_id := by simpa using hx2
    omega
  · -- group_lt
    intro g hg
    dsimp only at hg
    rw [hG] at hg
    have := hglt1 g hg
    show g.id < db3.next_id + 4
    omega
  · -- groups_nodup
    dsimp only
    rw [hG]
    exact hnd1
  · -- alias_lt
    intro a ha
    dsimp only at ha
    rw [hA] at ha
    have := halt1 a ha
    show a.group_id < db3.next_id + 4
    omega
  · -- journal_txn
    intro j hj
    rcases List.mem_append.mp hj with hjo | hjn
    · rw [hJ] at hjo
      obtain ⟨t, ht, hti⟩ := hInv.journal_txn j hjo
      exact ⟨t, List.mem_append.mpr (Or.inl (by rw [hT]; exact ht)), hti⟩
    · refine ⟨_, List.mem_append.mpr (Or.inr (List.mem_singleton_self _)),
        ?_⟩
      simp only [List.mem_cons, List.not_mem_nil, or_false] at hjn
      rcases hjn with rfl | rfl
      · rfl
      · rfl
  · -- pairs
    intro t ht
    rcases List.mem_append.mp ht with hto | htn
    · rw [hT] at hto
      obtain ⟨jd, jc, hl, hd, hc, ha⟩ := hInv.pairs t hto
      refine ⟨jd, jc, ?_, hd, hc, ha⟩
      unfold txn_entries
      dsimp only
      rw [hJ, filter_append_right_nil _ _ _ ?_]
      · exact hl
      · intro x hx
        have hxt : x.transaction_id = db3.next_id := by
          simp only [List.mem_cons, List.not_mem_nil, or_false] at hx
          rcases hx with rfl | rfl
          · rfl
          · rfl
        have := hInv.txn_lt t hto
        rw [hxt]
        simp only [beq_eq_false_iff_ne]
        omega
    · rw [List.mem_singleton] at htn
      subst htn
      unfold txn_entries
      dsimp only
      rw [hJ]
      have hold : db.journal_entries.filter
          (fun j => j.transaction_id == db3.next_id) = [] := by
        rw [List.filter_eq_nil_iff]
        intro j hj
        obtain ⟨t0, ht0, hti⟩ := hInv.journal_txn j hj
        have := hInv.txn_lt t0 ht0
        simp only [beq_iff_eq]
        omega
      rw [List.filter_append, hold, List.nil_append]
      simp only [List.filter_cons, List.filter_nil, beq_self_eq_true,
        if_true]
      exact ⟨_, _, rfl, rfl, rfl, rfl⟩
  · -- ledger_txn
    intro l hl
    rcases List.mem_append.mp hl with hlo | hln
    · rw [hL] at hlo
      obtain ⟨t, ht, hti, htu⟩ := hInv.ledger_txn l hlo
      exact ⟨t, List.mem_append.mpr (Or.inl (by rw [hT]; exact ht)),
        hti, htu⟩
    · rw [List.mem_singleton] at hln
      subst hln
      exact ⟨_, List.mem_append.mpr (Or.inr (List.mem_singleton_self _)),
        rfl, rfl⟩
  · -- ledger_tids_nodup
    dsimp only
    rw [hL, List.map_append, List.nodup_append]
    refine ⟨hInv.ledger_tids_nodup, List.nodup_singleton _, ?_⟩
    intro x hx1 hx2
    obtain ⟨l, hlm, rfl⟩ := List.mem_map.mp hx1
    obtain ⟨t, ht, hti, -⟩ := hInv.ledger_txn l hlm
    have := hInv.txn_lt t ht
    have h2 : l.transaction_id = db3.next_id := by simpa using hx2
    omega
  · -- sys
    intro v
    rcases hsys_all1 v with hv | hv
    · refine Or.inl ⟨?_, ?_⟩
      · show ({ db3 with
            transactions := _, journal_entries := _,
            ledger_entries := _, next_id := _ } :
            DB).account_groups.filter (fun g => g.user_id == v) = []
        dsimp only
        rw [hG]
        exact hv.1
      · show ({ db3 with
            transactions := _, journal_entries := _,
            ledger_entries := _, next_id := _ } :
            DB).account_aliases.filter (fun a => a.user_id == v) = []
        dsimp only
        rw [hA]
        exact hv.2
    · exact Or.inr (sysFull_congr db1 _ hA hG v hv)
  · -- txn_sys
    intro t ht
    rcases List.mem_append.mp ht with hto | htn
    · rw [hT] at hto
      exact sysFull_congr db1 _ hA hG t.user_id (htxnsys1 t hto)
    · rw [List.mem_singleton] at htn
      subst htn
      exact sysFull_congr db1 _ hA hG _ hSys1
  · -- display
    intro j hj t ht hjt
    rcases List.mem_append.mp hj with hjo | hjn
    · rw [hJ] at hjo
      rcases List.mem_append.mp ht with hto | htn
      · rw [hT] at hto
        have hold := hInv.display j hjo t hto hjt
        refine (alias_display_name_congr db1 _ hA hG t.user_id
          j.account_name).trans ?_
        exact (hdisp1 t.user_id j.account_name ⟨t, hto, rfl⟩).trans hold
      · exfalso
        rw [List.mem_singleton] at htn
        subst htn
        obtain ⟨t0, ht0, hti⟩ := hInv.journal_txn j hjo
        have h1 := hInv.txn_lt t0 ht0
        have hjt' : db3.next_id = j.transaction_id := hjt
        omega
    · rcases List.mem_append.mp ht with hto | htn
      · exfalso
        rw [hT] at hto
        have h1 := hInv.txn_lt t hto
        have hxt : j.transaction_id = db3.next_id := by
          simp only [List.mem_cons, List.not_mem_nil, or_false] at hjn
          rcases hjn with rfl | rfl
          · rfl
          · rfl
        omega
      · rw [List.mem_singleton] at htn
        subst htn
        simp only [List.mem_cons, List.not_mem_nil, or_false] at hjn
        rcases hjn with rfl | rfl
        · show alias_display_name _ uid
            (match resolve_account_alias db1 dn uid with
              | some g => g.name
              | none => dn) = _
          refine (alias_display_name_congr db1 _ hA hG uid _).trans ?_
          cases hres : resolve_account_alias db1 dn uid with
          | some g =>
            dsimp only
            exact resolve_some_display db1 uid dn g hSys1 hnd1 hres
          | none =>
            dsimp only
            exact sysfull_display_raw db1 uid dn hSys1 hnd1 hres
        · show alias_display_name _ uid
            (match resolve_account_alias db1 cn uid with
              | some g => g.name
              | none => cn) = _
          refine (alias_display_name_congr db1 _ hA hG uid _).trans ?_
          cases hres : resolve_account_alias db1 cn uid with
          | some g =>
            dsimp only
            exact resolve_some_display db1 uid cn g hSys1 hnd1 hres
          | none =>
            dsimp only
            exact sysfull_display_raw db1 uid cn hSys1 hnd1 hres
  · -- next_pos
    show 0 < db3.next_id + 4
    omega

/-! ## Reachability -/

/-- One core operation on the store: `post`, `update` or `delete`. -/
inductive Op where
  | post (parsed : ParsedTransaction) (uid cid mid : String)
      (gid : Option String) (confirmed : Bool) (now : Nat)
  | update (tid : Nat) (uid : String) (na : Option Rat)
      (ns nd nde : Option String)
  | del (eid : Nat) (uid : String)

/-- Apply one operation; an error rolls back, leaving the state
unchanged. -/
def applyOp (db : DB) : Op → DB
  | .post p u c m g cf now =>
    match insert db p u c m g cf now with
    | .ok (_, db') => db'
    | .error _ => db
  | .update tid u na ns nd nde =>
    match update_transaction db tid u na ns nd nde with
    | .ok (_, db') => db'
    | .error _ => db
  | .del eid u =>
    match delete_entry db eid u with
    | .ok (_, db') => db'
    | .error _ => db

/-- The state reached from the empty database by a sequence of core
operations. -/
def runOps (ops : List Op) : DB := ops.foldl applyOp emptyDB

/-- Each operation preserves the invariant. -/
theorem applyOp_inv (db : DB) (op : Op) (h : Inv db) :
    Inv (applyOp db op) := by
  cases op with
  | post p u c m g cf now =>
    show Inv (match insert db p u c m g cf now with
      | .ok (_, db') => db'
      | .error _ => db)
    cases hi : insert db p u c m g cf now with
    | ok r =>
      obtain ⟨l, db2⟩ := r
      exact insert_inv h hi
    | error e => exact h
  | update tid u na ns nd nde =>
    show Inv (match update_transaction db tid u na ns nd nde with
      | .ok (_, db') => db'
      | .error _ => db)
    cases hi : update_transaction db tid u na ns nd nde with
    | ok r =>
      obtain ⟨res, db2⟩ := r
      exact update_inv h hi
    | error e => exact h
  | del eid u =>
    show Inv (match delete_entry db eid u with
      | .ok (_, db') => db'
      | .error _ => db)
    cases hi : delete_entry db eid u with
    | ok r =>
      obtain ⟨b, db2⟩ := r
      exact delete_inv h hi
    | error e => exact h

/-- Every reachable state satisfies the invariant. -/
theorem runOps_inv (ops : List Op) : Inv (runOps ops) := by
  unfold runOps
  have hstep : ∀ (l : List Op) (d : DB), Inv d →
      Inv (l.foldl applyOp d) := by
    intro l
    induction l with
    | nil => exact fun d hd => hd
    | cons o os ih => exact fun d hd => ih _ (applyOp_inv d o hd)
  exact hstep ops emptyDB inv_empty

/-! ## The trial-balance invariant -/

/-- Composing two filters conjoins the predicates. -/
theorem filter_comm_and {α : Type} (p q : α → Bool) (l : List α) :
    (l.filter p).filter q = l.filter (fun x => q x && p x) := by
  induction l with
  | nil => rfl
  | cons x xs ih =>
    by_cases hp : p x <;> by_cases hq : q x <;>
      simp [List.filter_cons, hp, hq, ih]

/-- Two filters commute. -/
theorem filter_swap {α : Type} (p q : α → Bool) (l : List α) :
    (l.filter p).filter q = (l.filter q).filter p := by
  rw [filter_comm_and, filter_comm_and]
  apply List.filter_congr
  intro x _
  exact Bool.and_comm _ _

/-- Summing one account-name fiber at a time over the deduplicated name
list totals the whole filtered journal: the `GROUP BY`/Python-dict
aggregation step of the reports. -/
theorem sum_names_filter (l : List JournalRow) (p : JournalRow → Bool) :
    ((dedupFirst (l.map (fun j => j.account_name))).map
      (fun n => sum_amounts (l.filter
        (fun j => j.account_name == n && p j)))).sum =
    sum_amounts (l.filter p) := by
  have hstep : ∀ n : String,
      l.filter (fun j => j.account_name == n && p j) =
      (l.filter p).filter (fun j => j.account_name == n) :=
    fun n => (filter_comm_and p (fun j => j.account_name == n) l).symm
  unfold sum_amounts
  have hmaps : (dedupFirst (l.map (fun j => j.account_name))).map
      (fun n => ((l.filter
        (fun j => j.account_name == n && p j)).map
          (fun j => j.amount)).sum) =
      (dedupFirst (l.map (fun j => j.account_name))).map
      (fun n => (((l.filter p).filter
        (fun j => j.account_name == n)).map (fun j => j.amount)).sum) :=
    List.map_congr_left (fun n _ => by rw [hstep n])
  rw [hmaps]
  exact sum_fiber (fun j => j.account_name) (fun j => j.amount)
    (dedupFirst (l.map (fun j => j.account_name))) (l.filter p)
    (dedupFirst_nodup _)
    (fun x hx => (mem_dedupFirst _ _).mpr
      (List.mem_map_of_mem _ (List.mem_of_mem_filter hx)))

/-- Restricting the owner's journal rows to one of the owner's
transactions gives exactly that transaction's entries. -/
theorem user_rows_txn_filter {db : DB} {u : String}
    {t : TransactionRow} (ht : t ∈ db.transactions) (htu : t.user_id = u) :
    (user_journal_rows db u).filter
      (fun j => j.transaction_id == t.id) = txn_entries db t.id := by
  unfold user_journal_rows txn_entries
  rw [filter_comm_and]
  apply List.filter_congr
  intro j _
  by_cases hj : j.transaction_id = t.id
  · have hb : (j.transaction_id == t.id) = true := by
      rw [hj]
      simp
    rw [hb, Bool.true_and]
    rw [List.any_eq_true]
    refine ⟨t, ht, ?_⟩
    rw [hj, htu]
    simp
  · have hne : (j.transaction_id == t.id) = false :=
      beq_eq_false_iff_ne.mpr hj
    simp [hne]

/-- In an invariant state, the owner's total debit amount equals the
total credit amount: each transaction contributes one balanced pair. -/
theorem user_rows_type_sums {db : DB} (hInv : Inv db) (u : String) :
    sum_amounts ((user_journal_rows db u).filter
      (fun j => j.entry_type == EntryType.debit)) =
    sum_amounts ((user_journal_rows db u).filter
      (fun j => j.entry_type == EntryType.credit)) := by
  have hnd_tids : (((db.transactions.filter
      (fun t => t.user_id == u)).map (fun t => t.id))).Nodup :=
    List.Nodup.sublist (List.Sublist.map _ (List.filter_sublist _))
      hInv.txns_nodup
  have hcov : ∀ (p : JournalRow → Bool),
      ∀ x ∈ (user_journal_rows db u).filter p,
      x.transaction_id ∈ (db.transactions.filter
        (fun t => t.user_id == u)).map (fun t => t.id) := by
    intro p j hj
    have hjr := List.mem_of_mem_filter hj
    have hany := (List.mem_filter.mp hjr).2
    rw [List.any_eq_true] at hany
    obtain ⟨t, ht, hpred⟩ := hany
    simp only [Bool.and_eq_true, beq_iff_eq] at hpred
    exact List.mem_map.mpr ⟨t, List.mem_filter.mpr
      ⟨ht, beq_iff_eq.mpr hpred.2⟩, hpred.1⟩
  have hfd := sum_fiber (fun j => j.transaction_id) (fun j => j.amount)
    ((db.transactions.filter (fun t => t.user_id == u)).map
      (fun t => t.id))
    ((user_journal_rows db u).filter
      (fun j => j.entry_type == EntryType.debit))
    hnd_tids (hcov _)
  have hfc := sum_fiber (fun j => j.transaction_id) (fun j => j.amount)
    ((db.transactions.filter (fun t => t.user_id == u)).map
      (fun t => t.id))
    ((user_journal_rows db u).filter
      (fun j => j.entry_type == EntryType.credit))
    hnd_tids (hcov _)
  unfold sum_amounts
  rw [← hfd, ← hfc]
  apply congrArg List.sum
  apply List.map_congr_left
  intro i hi
  obtain ⟨t, htf, rfl⟩ := List.mem_map.mp hi
  have ht := List.mem_of_mem_filter htf
  have htu : t.user_id = u := beq_iff_eq.mp (List.mem_filter.mp htf).2
  obtain ⟨jd, jc, hl, hd, hc, ha⟩ := hInv.pairs t ht
  have hrows := user_rows_txn_filter ht htu
  have e1 : (EntryType.credit == EntryType.debit) = false := by decide
  have e2 : (EntryType.debit == EntryType.credit) = false := by decide
  have h1 : ((user_journal_rows db u).filter
      (fun j => j.entry_type == EntryType.debit)).filter
      (fun j => j.transaction_id == t.id) = [jd] := by
    rw [filter_swap, hrows, hl, List.filter_cons, List.filter_cons,
      List.filter_nil]
    simp [hd, hc, e1]
  have h2 : ((user_journal_rows db u).filter
      (fun j => j.entry_type == EntryType.credit)).filter
      (fun j => j.transaction_id == t.id) = [jc] := by
    rw [filter_swap, hrows, hl, List.filter_cons, List.filter_cons,
      List.filter_nil]
    simp [hd, hc, e2]
  rw [h1, h2]
  simp [ha]

/-- In an invariant state, the trial balance's two totals agree
exactly. -/
theorem trial_balance_eq {db : DB} (hInv : Inv db) (u : String) :
    (get_trial_balance db u).total_debits =
      (get_trial_balance db u).total_credits := by
  show ((dedupFirst ((user_journal_rows db u).map
      (fun j => j.account_name))).map
      (fun n => debit_total (user_journal_rows db u) n)).sum =
    ((dedupFirst ((user_journal_rows db u).map
      (fun j => j.account_name))).map
      (fun n => credit_total (user_journal_rows db u) n)).sum
  unfold debit_total credit_total
  rw [sum_names_filter (user_journal_rows db u)
      (fun j => j.entry_type == EntryType.debit),
    sum_names_filter (user_journal_rows db u)
      (fun j => j.entry_type == EntryType.credit)]
  exact user_rows_type_sums hInv u

/-- Equal quantities are within every positive epsilon. -/
theorem abs_sub_self_lt (a b : Rat) (h : a = b) :
    decide (|a - b| < 1 / 100) = true := by
  subst h
  simp only [sub_self, abs_zero, decide_eq_true_eq]
  norm_num

/-- In an invariant state, the trial balance reports itself balanced. -/
theorem trial_balance_is_balanced {db : DB} (hInv : Inv db)
    (u : String) : (get_trial_balance db u).is_balanced = true := by
  show decide (|(get_trial_balance db u).total_debits -
      (get_trial_balance db u).total_credits| < 1 / 100) = true
  exact abs_sub_self_lt _ _ (trial_balance_eq hInv u)

/-! ## The accounting-equation invariant -/

/-- The accounting-equation gap `assets - (liabilities + equity)` of a
classification-fold state. -/
def equation_gap (s : List (String × Rat) × List (String × Rat) ×
    List (String × Rat) × Rat × Rat × Rat) : Rat :=
  s.2.2.2.1 - (s.2.2.2.2.1 + s.2.2.2.2.2)

/-- The contribution of one aggregated bucket to the accounting-equation
gap. -/
def bsf_contrib : String × Rat × AccountType → Rat
  | (_, b, .asset) => b
  | (_, b, .liability) => -b
  | (_, b, .equity) => -b
  | (_, b, .revenue) => -b
  | (_, b, .expense) => b

/-- `foldl` only looks at the function's values on list members. -/
theorem foldl_congr {α β : Type} (f g : β → α → β) (l : List α)
    (init : β) (h : ∀ x ∈ l, ∀ acc, f acc x = g acc x) :
    l.foldl f init = l.foldl g init := by
  induction l generalizing init with
  | nil => rfl
  | cons x xs ih =>
    rw [List.foldl_cons, List.foldl_cons, h x (by simp)]
    exact ih _ (fun y hy acc => h y (by simp [hy]) acc)

/-- Mapping a function that fixes every member is the identity. -/
theorem map_eq_self_of_id {α : Type} (f : α → α) (l : List α)
    (h : ∀ x ∈ l, f x = x) : l.map f = l := by
  induction l with
  | nil => rfl
  | cons x xs ih =>
    rw [List.map_cons, h x (by simp),
      ih (fun y hy => h y (by simp [hy]))]

/-- A sum of differences is the difference of sums. -/
theorem sum_map_sub {α : Type} (f g : α → Rat) (l : List α) :
    (l.map (fun x => f x - g x)).sum = (l.map f).sum - (l.map g).sum := by
  induction l with
  | nil => simp
  | cons x xs ih =>
    simp only [List.map_cons, List.sum_cons, ih]
    ring

/-- Folding `agg_insert` over pairwise-distinct keys, starting from an
accumulator containing none of them, appends one bucket per pair. -/
theorem agg_fold_fresh (ty : String → AccountType) :
    ∀ (l : List (String × Rat)) (acc0 : List (String × Rat × AccountType)),
    (l.map Prod.fst).Nodup →
    (∀ nb ∈ l, ∀ e ∈ acc0, e.1 ≠ nb.1) →
    l.foldl (fun acc nb => agg_insert acc nb.1 nb.2 (ty nb.1)) acc0 =
      acc0 ++ l.map (fun nb => (nb.1, nb.2, ty nb.1)) := by
  intro l
  induction l with
  | nil =>
    intro acc0 _ _
    simp
  | cons nb rest ih =>
    intro acc0 hnd hdisj
    rw [List.map_cons, List.nodup_cons] at hnd
    rw [List.foldl_cons]
    have hnone : (acc0.any (fun e => e.1 == nb.1)) = false := by
      rw [List.any_eq_false]
      intro e he
      simp only [Bool.not_eq_true]
      exact beq_eq_false_iff_ne.mpr
        (hdisj nb (List.mem_cons_self _ _) e he)
    have hstep : agg_insert acc0 nb.1 nb.2 (ty nb.1) =
        acc0 ++ [(nb.1, nb.2, ty nb.1)] := by
      unfold agg_insert
      rw [hnone, if_neg Bool.false_ne_true]
    rw [hstep, ih (acc0 ++ [(nb.1, nb.2, ty nb.1)]) hnd.2 ?_,
      List.map_cons]
    · simp [List.append_assoc]
    · intro x hx e he
      rcases List.mem_append.mp he with he0 | he1
      · exact hdisj x (List.mem_cons_of_mem _ hx) e he0
      · rw [List.mem_singleton] at he1
        subst he1
        show nb.1 ≠ x.1
        intro hcontra
        exact hnd.1 (hcontra ▸ List.mem_map_of_mem Prod.fst hx)

/-- Folding `agg_insert` from the empty accumulator over distinct keys
is a plain map. -/
theorem agg_fold_distinct (ty : String → AccountType)
    (l : List (String × Rat)) (hnd : (l.map Prod.fst).Nodup) :
    l.foldl (fun acc nb => agg_insert acc nb.1 nb.2 (ty nb.1)) [] =
      l.map (fun nb => (nb.1, nb.2, ty nb.1)) := by
  have h := agg_fold_fresh ty l [] hnd (fun nb _ e he => by cases he)
  simpa using h

/-- `get_user_balance_by_account` with its `let`s expanded. -/
theorem balances_expand (db : DB) (u : String) :
    get_user_balance_by_account db u =
      (dedupFirst ((user_journal_rows db u).map
        (fun j => j.account_name))).map
        (fun n =>
          if lookup_account_type db u n = AccountType.asset ∨
              lookup_account_type db u n = AccountType.expense then
            (n, debit_total (user_journal_rows db u) n -
                credit_total (user_journal_rows db u) n)
          else (n, credit_total (user_journal_rows db u) n -
                debit_total (user_journal_rows db u) n)) := rfl

/-- The keys of the per-account balances are the deduplicated journal
names. -/
theorem balances_fst (db : DB) (u : String) :
    (get_user_balance_by_account db u).map Prod.fst =
      dedupFirst ((user_journal_rows db u).map
        (fun j => j.account_name)) := by
  rw [balances_expand, List.map_map]
  apply map_eq_self_of_id
  intro n _
  simp only [Function.comp]
  by_cases hc : lookup_account_type db u n = AccountType.asset ∨
      lookup_account_type db u n = AccountType.expense
  · rw [if_pos hc]
  · rw [if_neg hc]

/-- In an invariant state, every reported account name is its own
balance-sheet display name. -/
theorem display_identity {db : DB} (hInv : Inv db) (u : String) :
    ∀ nb ∈ get_user_balance_by_account db u,
      alias_display_name db u nb.1 = nb.1 := by
  intro nb hnb
  rw [balances_expand] at hnb
  obtain ⟨n, hn, rfl⟩ := List.mem_map.mp hnb
  have hfst : (if lookup_account_type db u n = AccountType.asset ∨
      lookup_account_type db u n = AccountType.expense then
        (n, debit_total (user_journal_rows db u) n -
            credit_total (user_journal_rows db u) n)
      else (n, credit_total (user_journal_rows db u) n -
            debit_total (user_journal_rows db u) n)).1 = n := by
    by_cases hc : lookup_account_type db u n = AccountType.asset ∨
        lookup_account_type db u n = AccountType.expense
    · rw [if_pos hc]
    · rw [if_neg hc]
  rw [hfst]
  have hn' := (mem_dedupFirst _ _).mp hn
  obtain ⟨j, hj, rfl⟩ := List.mem_map.mp hn'
  have hjm := List.mem_of_mem_filter hj
  have hany := (List.mem_filter.mp hj).2
  rw [List.any_eq_true] at hany
  obtain ⟨t, ht, hpred⟩ := hany
  simp only [Bool.and_eq_true, beq_iff_eq] at hpred
  have hd := hInv.display j hjm t ht hpred.1
  rw [hpred.2] at hd
  exact hd

/-- In an invariant state, the balance-sheet aggregation step is a plain
map: the alias re-resolution keeps every name, and all names are
distinct. -/
theorem agg_expand {db : DB} (hInv : Inv db) (u : String) :
    (get_user_balance_by_account db u).foldl
      (fun acc nb => agg_insert acc (alias_display_name db u nb.1) nb.2
        (lookup_account_type db u nb.1)) [] =
    (get_user_balance_by_account db u).map
      (fun nb => (nb.1, nb.2, lookup_account_type db u nb.1)) := by
  rw [foldl_congr
    (fun acc nb => agg_insert acc (alias_display_name db u nb.1) nb.2
      (lookup_account_type db u nb.1))
    (fun acc nb => agg_insert acc nb.1 nb.2
      (lookup_account_type db u nb.1))
    (get_user_balance_by_account db u) []
    (fun nb hnb acc => by
      dsimp only
      rw [display_identity hInv u nb hnb])]
  apply agg_fold_distinct (fun n => lookup_account_type db u n)
  rw [balances_fst]
  exact dedupFirst_nodup _

/-- The classification fold moves each bucket's gap contribution into
the running accounting-equation gap. -/
theorem fold_gap (agg : List (String × Rat × AccountType)) :
    ∀ s0, equation_gap (agg.foldl bsf_step s0) =
      equation_gap s0 + (agg.map bsf_contrib).sum := by
  induction agg with
  | nil =>
    intro s0
    simp
  | cons e l ih =>
    intro s0
    obtain ⟨as_, ls, es, ta, tl, te⟩ := s0
    obtain ⟨name, balance, ty⟩ := e
    rw [List.foldl_cons, List.map_cons, List.sum_cons, ih]
    cases ty <;>
      · unfold equation_gap bsf_step bsf_contrib
        dsimp only
        ring

/-- In an invariant state, the balance sheet satisfies the accounting
equation exactly. -/
theorem balance_sheet_gap {db : DB} (hInv : Inv db) (u : String) :
    (get_balance_sheet db u).total_assets -
      ((get_balance_sheet db u).total_liabilities +
        (get_balance_sheet db u).total_equity) = 0 := by
  show equation_gap (balance_sheet_fold
    ((get_user_balance_by_account db u).foldl
      (fun acc nb => agg_insert acc (alias_display_name db u nb.1) nb.2
        (lookup_account_type db u nb.1)) [])) = 0
  rw [agg_expand hInv u]
  unfold balance_sheet_fold
  rw [fold_gap]
  have hinit : equation_gap ([], [], [], 0, 0, 0) = 0 := by
    unfold equation_gap
    norm_num
  rw [hinit, zero_add, List.map_map, balances_expand db u, List.map_map]
  have key : ∀ F : String → Rat,
      (∀ n ∈ dedupFirst ((user_journal_rows db u).map
        (fun j => j.account_name)),
        F n = debit_total (user_journal_rows db u) n -
          credit_total (user_journal_rows db u) n) →
      ((dedupFirst ((user_journal_rows db u).map
        (fun j => j.account_name))).map F).sum = 0 := by
    intro F hF
    rw [List.map_congr_left hF, sum_map_sub]
    unfold debit_total credit_total
    rw [sum_names_filter (user_journal_rows db u)
        (fun j => j.entry_type == EntryType.debit),
      sum_names_filter (user_journal_rows db u)
        (fun j => j.entry_type == EntryType.credit)]
    rw [user_rows_type_sums hInv u]
    ring
  apply key
  intro n hn
  simp only [Function.comp]
  by_cases hc : lookup_account_type db u n = AccountType.asset ∨
      lookup_account_type db u n = AccountType.expense
  · rw [if_pos hc]
    dsimp only
    rcases hc with hty | hty <;> rw [hty] <;> rfl
  · rw [if_neg hc]
    dsimp only
    cases hty : lookup_account_type db u n with
    | asset => exact absurd (Or.inl hty) hc
    | expense => exact absurd (Or.inr hty) hc
    | liability =>
      show -(credit_total (user_journal_rows db u) n -
        debit_total (user_journal_rows db u) n) = _
      ring
    | equity =>
      show -(credit_total (user_journal_rows db u) n -
        debit_total (user_journal_rows db u) n) = _
      ring
    | revenue =>
      show -(credit_total (user_journal_rows db u) n -
        debit_total (user_journal_rows db u) n) = _
      ring

/-- In an invariant state, the balance sheet reports itself balanced. -/
theorem balance_sheet_is_balanced {db : DB} (hInv : Inv db)
    (u : String) : (get_balance_sheet db u).is_balanced = true := by
  have h := balance_sheet_gap hInv u
  show decide (|(get_balance_sheet db u).total_assets -
      ((get_balance_sheet db u).total_liabilities +
        (get_balance_sheet db u).total_equity)| < 1 / 100) = true
  rw [h]
  simp only [abs_zero, decide_eq_true_eq]
  norm_num

/-! ## Further helpers and concrete inputs for the claims -/

/-- Equality of `Except` values is decidable when it is for both sides:
used to evaluate concrete repository calls. -/
instance {e a : Type} [DecidableEq e] [DecidableEq a] :
    DecidableEq (Except e a) := fun x y =>
  match x, y with
  | .ok v, .ok w => decidable_of_iff (v = w) (by simp)
  | .error v, .error w => decidable_of_iff (v = w) (by simp)
  | .ok _, .error _ => isFalse (fun h0 => by cases h0)
  | .error _, .ok _ => isFalse (fun h0 => by cases h0)

/-- A name with a non-empty strip has a non-empty `strip().lower()`. -/
theorem stripLower_ne_empty {a : String} (h : ¬ pyStrip a = "") :
    ¬ stripLower a = "" := by
  intro hc
  apply h
  have h2 : (stripChars a.data).map pyCharLower = [] :=
    congrArg String.data hc
  have h3 : stripChars a.data = [] := List.map_eq_nil_iff.mp h2
  show (⟨stripChars a.data⟩ : String) = ""
  rw [h3]

/-- The credit-entry/revenue-group join of `get_income_statement`. -/
def rev_rows (db : DB) (u : String) (sd ed : Option Nat) :
    List JournalRow :=
  db.journal_entries.filter (fun j =>
    j.entry_type == EntryType.credit &&
    db.transactions.any (fun t =>
      t.id == j.transaction_id && t.user_id == u &&
      in_date_range t sd ed) &&
    db.account_groups.any (fun g =>
      g.name == j.account_name && g.user_id == u &&
      g.account_type == AccountType.revenue))

/-- The debit-entry/expense-group join of `get_income_statement`. -/
def exp_rows (db : DB) (u : String) (sd ed : Option Nat) :
    List JournalRow :=
  db.journal_entries.filter (fun j =>
    j.entry_type == EntryType.debit &&
    db.transactions.any (fun t =>
      t.id == j.transaction_id && t.user_id == u &&
      in_date_range t sd ed) &&
    db.account_groups.any (fun g =>
      g.name == j.account_name && g.user_id == u &&
      g.account_type == AccountType.expense))

/-- `get_income_statement` with its `let`s expanded. -/
theorem income_statement_expand (db : DB) (u : String)
    (sd ed : Option Nat) :
    get_income_statement db u sd ed =
      { revenue := (dedupFirst ((rev_rows db u sd ed).map
          (fun j => j.account_name))).map (fun n =>
            (n, sum_amounts ((rev_rows db u sd ed).filter
              (fun j => j.account_name == n)))),
        expenses := (dedupFirst ((exp_rows db u sd ed).map
          (fun j => j.account_name))).map (fun n =>
            (n, sum_amounts ((exp_rows db u sd ed).filter
              (fun j => j.account_name == n)))),
        total_revenue := (((dedupFirst ((rev_rows db u sd ed).map
          (fun j => j.account_name))).map (fun n =>
            (n, sum_amounts ((rev_rows db u sd ed).filter
              (fun j => j.account_name == n))))).map
                (fun e => e.2)).sum,
        total_expenses := (((dedupFirst ((exp_rows db u sd ed).map
          (fun j => j.account_name))).map (fun n =>
            (n, sum_amounts ((exp_rows db u sd ed).filter
              (fun j => j.account_name == n))))).map
                (fun e => e.2)).sum,
        net_income := (((dedupFirst ((rev_rows db u sd ed).map
          (fun j => j.account_name))).map (fun n =>
            (n, sum_amounts ((rev_rows db u sd ed).filter
              (fun j => j.account_name == n))))).map
                (fun e => e.2)).sum -
          (((dedupFirst ((exp_rows db u sd ed).map
          (fun j => j.account_name))).map (fun n =>
            (n, sum_amounts ((exp_rows db u sd ed).filter
              (fun j => j.account_name == n))))).map
                (fun e => e.2)).sum } := rfl

/-- An incoming posting of 100 from `sidegig` to `wallet`. -/
def exParsed1 : ParsedTransaction :=
  { action := .incoming, amount := some 100, source := some "sidegig",
    destination := some "wallet", description := none, raw_text := "note",
    confidence := 1 }

/-- One post of `exParsed1` as an operation history. -/
def exOps1 : List Op := [Op.post exParsed1 "u1" "chan" "msg" none true 0]

/-- The transaction row that history writes (ids 1-9 go to the system
bootstrap, 10-11 to the legacy accounts). -/
def exTxn1 : TransactionRow :=
  { id := 12, description := none, raw_text := "note", confidence := 1,
    user_id := "u1", guild_id := none, channel_id := "chan",
    message_id := "msg", created_at := 0, confirmed := true }

/-- Post `exParsed1`, then create group `Bank` and alias both raw names
to it: the state refuting the unconditional accounting equation. -/
def c3db : DB :=
  match insert emptyDB exParsed1 "u1" "chan" "msg" none true 0 with
  | .ok (_, d1) =>
    (match create_account_group d1 "Bank" "u1" .asset none false with
     | .ok (g, d2) =>
       (match add_account_alias d2 "wallet" g.id "u1" with
        | .ok (_, d3) =>
          (match add_account_alias d3 "sidegig" g.id "u1" with
           | .ok (_, d4) => d4
           | .error _ => emptyDB)
        | .error _ => emptyDB)
     | .error _ => emptyDB)
  | .error _ => emptyDB

/-- A transfer whose source is present but the empty string. -/
def c4p : ParsedTransaction :=
  { action := .transfer, amount := some 5, source := some "",
    destination := some "x", description := none, raw_text := "t",
    confidence := 1 }

/-- Incoming 16000 to `gopay` (the automatic alias of group `GoPay`). -/
def c5pA : ParsedTransaction :=
  { action := .incoming, amount := some 16000, source := none,
    destination := some "gopay", description := none, raw_text := "t",
    confidence := 1 }

/-- Incoming 2500 to the added alias `go-pay`. -/
def c5pB : ParsedTransaction :=
  { action := .incoming, amount := some 2500, source := none,
    destination := some "go-pay", description := none, raw_text := "t",
    confidence := 1 }

/-- Incoming 100 to `go-pay` before any alias exists. -/
def c5pC : ParsedTransaction :=
  { action := .incoming, amount := some 100, source := none,
    destination := some "go-pay", description := none, raw_text := "t",
    confidence := 1 }

/-- Scenario D: group `GoPay`, aliases `gopay` (automatic) and `go-pay`,
then two postings through the two aliases. -/
def c5db : DB :=
  match create_account_group emptyDB "GoPay" "u1" .asset none false with
  | .ok (g, d) =>
    (match add_account_alias d "go-pay" g.id "u1" with
     | .ok (_, d2) =>
       (match insert d2 c5pA "u1" "c" "m1" none true 0 with
        | .ok (_, d3) =>
          (match insert d3 c5pB "u1" "c" "m2" none true 0 with
           | .ok (_, d4) => d4
           | .error _ => emptyDB)
        | .error _ => emptyDB)
     | .error _ => emptyDB)
  | .error _ => emptyDB

/-- A posting to `go-pay` made before the group and aliases exist,
followed by the alias setup and a posting through `gopay`. -/
def c5xdb : DB :=
  match insert emptyDB c5pC "u1" "c" "m0" none true 0 with
  | .ok (_, d) =>
    (match create_account_group d "GoPay" "u1" .asset none false with
     | .ok (g, d2) =>
       (match add_account_alias d2 "go-pay" g.id "u1" with
        | .ok (_, d3) =>
          (match insert d3 c5pA "u1" "c" "m1" none true 0 with
           | .ok (_, d4) => d4
           | .error _ => emptyDB)
        | .error _ => emptyDB)
     | .error _ => emptyDB)
  | .error _ => emptyDB

/-- An incoming posting whose destination is the system alias
`income`. -/
def c6p : ParsedTransaction :=
  { action := .incoming, amount := some 100, source := none,
    destination := some "income", description := none, raw_text := "t",
    confidence := 1 }

/-- The state after posting `c6p`. -/
def c6db : DB :=
  match insert emptyDB c6p "u1" "c" "m" none true 0 with
  | .ok (_, d) => d
  | .error _ => emptyDB

/-- A group `Main` for the alias scenario. -/
def c7g : AccountGroupRow :=
  { id := 1, name := "Main", account_type := .asset, user_id := "u1",
    description := none, is_system := false }

/-- The automatic alias of `Main`. -/
def c7al : AccountAliasRow :=
  { id := 2, aliasStr := "main", group_id := 1, user_id := "u1" }

/-- A store holding just the group `Main` and its automatic alias. -/
def c7db : DB :=
  { account_groups := [c7g], account_aliases := [c7al], next_id := 3 }

/-- The alias row `addAlias "main pocket"` inserts. -/
def c7row : AccountAliasRow :=
  { id := 3, aliasStr := "main pocket", group_id := 1, user_id := "u1" }

/-- The store after that `addAlias`. -/
def c7db2 : DB :=
  { c7db with
    account_aliases := c7db.account_aliases ++ [c7row],
    next_id := 4 }

/-- An incoming posting to the unresolvable name `" MyBank "`. -/
def c9p : ParsedTransaction :=
  { action := .incoming, amount := some 100, source := none,
    destination := some " MyBank ", description := none, raw_text := "t",
    confidence := 1 }

/-- A placeholder ledger row. -/
def nullLedgerRow : LedgerRow :=
  { id := 0, action := .incoming, amount := 0, source := none,
    destination := none, description := none, raw_text := "",
    confidence := 0, user_id := "", guild_id := none, channel_id := "",
    message_id := "", created_at := 0, confirmed := false,
    transaction_id := 0 }

/-- The state after posting `c9p`. -/
def c9db : DB :=
  match insert emptyDB c9p "u" "c" "m" none true 0 with
  | .ok (_, d) => d
  | .error _ => emptyDB

/-- The ledger row returned by posting `c9p`. -/
def c9le : LedgerRow :=
  match insert emptyDB c9p "u" "c" "m" none true 0 with
  | .ok (l, _) => l
  | .error _ => nullLedgerRow

/-! ## The claims -/

/-- **C1.** For every transaction in a state reachable through
post/update/delete, the journal holds exactly two entries for it — a
debit first and a credit, with one shared amount — so the sum of its
debit amounts equals the sum of its credit amounts. -/
theorem C1_balance_invariant (ops : List Op) (t : TransactionRow)
    (ht : t ∈ (runOps ops).transactions) :
    (∃ jd jc, txn_entries (runOps ops) t.id = [jd, jc] ∧
      jd.entry_type = EntryType.debit ∧
      jc.entry_type = EntryType.credit ∧ jd.amount = jc.amount) ∧
    sum_amounts ((txn_entries (runOps ops) t.id).filter
      (fun j => j.entry_type == EntryType.debit)) =
    sum_amounts ((txn_entries (runOps ops) t.id).filter
      (fun j => j.entry_type == EntryType.credit)) := by
  obtain ⟨jd, jc, hl, hd, hc, ha⟩ := (runOps_inv ops).pairs t ht
  refine ⟨⟨jd, jc, hl, hd, hc, ha⟩, ?_⟩
  rw [hl]
  unfold sum_amounts
  have e1 : (EntryType.credit == EntryType.debit) = false := by decide
  have e2 : (EntryType.debit == EntryType.credit) = false := by decide
  simp [List.filter_cons, hd, hc, e1, e2, ha]

/-- The history `exOps1` does write the transaction `exTxn1`, and its
pair of journal entries is balanced. -/
theorem C1_balance_invariant_witness :
    exTxn1 ∈ (runOps exOps1).transactions ∧
    ((∃ jd jc, txn_entries (runOps exOps1) exTxn1.id = [jd, jc] ∧
      jd.entry_type = EntryType.debit ∧
      jc.entry_type = EntryType.credit ∧ jd.amount = jc.amount) ∧
    sum_amounts ((txn_entries (runOps exOps1) exTxn1.id).filter
      (fun j => j.entry_type == EntryType.debit)) =
    sum_amounts ((txn_entries (runOps exOps1) exTxn1.id).filter
      (fun j => j.entry_type == EntryType.credit))) :=
  ⟨by decide!, C1_balance_invariant exOps1 exTxn1 (by decide!)⟩

/-- **C2.** For any owner and any state reachable solely through
post/update/delete, the trial balance's total debits equal its total
credits exactly (so in particular within 0.01), and `is_balanced`,
computed as `|total_debits - total_credits| < 0.01`, is true. -/
theorem C2_trial_balance_invariant (ops : List Op) (u : String) :
    (get_trial_balance (runOps ops) u).total_debits =
      (get_trial_balance (runOps ops) u).total_credits ∧
    (get_trial_balance (runOps ops) u).is_balanced = true :=
  ⟨trial_balance_eq (runOps_inv ops) u,
   trial_balance_is_balanced (runOps_inv ops) u⟩

/-- **C3** (amended). The classification fold lists no revenue or
expense line item: it adds a revenue balance to `total_equity` and
subtracts an expense balance from it.  For any owner and any history
produced solely through post/update/delete, the balance sheet satisfies
the accounting equation exactly, and `is_balanced` is true.  (With alias
management in the history the equation can fail; see the
counterexample.) -/
theorem C3_accounting_equation (ops : List Op) (u : String) :
    (∀ s : List (String × Rat) × List (String × Rat) ×
        List (String × Rat) × Rat × Rat × Rat, ∀ n : String, ∀ b : Rat,
      bsf_step s (n, b, AccountType.revenue) =
        (s.1, s.2.1, s.2.2.1, s.2.2.2.1, s.2.2.2.2.1,
         s.2.2.2.2.2 + b) ∧
      bsf_step s (n, b, AccountType.expense) =
        (s.1, s.2.1, s.2.2.1, s.2.2.2.1, s.2.2.2.2.1,
         s.2.2.2.2.2 - b)) ∧
    (get_balance_sheet (runOps ops) u).total_assets -
      ((get_balance_sheet (runOps ops) u).total_liabilities +
        (get_balance_sheet (runOps ops) u).total_equity) = 0 ∧
    (get_balance_sheet (runOps ops) u).is_balanced = true := by
  refine ⟨?_, balance_sheet_gap (runOps_inv ops) u,
    balance_sheet_is_balanced (runOps_inv ops) u⟩
  intro s n b
  obtain ⟨as_, ls, es, ta, tl, te⟩ := s
  exact ⟨rfl, rfl⟩

/-- Posting 100 from `sidegig` to `wallet`, then creating group `Bank`
and aliasing both raw names to it, leaves a balance sheet with assets
200 against liabilities + equity 0: the accounting equation fails for a
history that includes alias management. -/
theorem C3_accounting_equation_counterexample :
    (get_balance_sheet c3db "u1").is_balanced = false ∧
    (get_balance_sheet c3db "u1").total_assets = 200 ∧
    (get_balance_sheet c3db "u1").total_liabilities = 0 ∧
    (get_balance_sheet c3db "u1").total_equity = 0 := by decide!

/-- **C4** (amended).  Validation checks presence, not non-emptiness:
`is_valid` holds exactly when the amount is present and positive and the
action's required fields are present (`is not None`); and `insert`
rejects with an error — writing nothing — whenever `is_valid` is false
or the confidence is outside `[0, 1]`. -/
theorem C4_post_validation (db : DB) (p : ParsedTransaction)
    (uid cid mid : String) (gid : Option String) (conf : Bool)
    (now : Nat) :
    (p.is_valid = true ↔
      ((∃ a, p.amount = some a ∧ 0 < a) ∧
       match p.action with
       | .transfer => p.source ≠ none ∧ p.destination ≠ none
       | .incoming => p.destination ≠ none
       | .outgoing => p.source ≠ none)) ∧
    ((p.is_valid = false ∨ p.confidence < 0 ∨ 1 < p.confidence) →
      ∃ e, insert db p uid cid mid gid conf now = Except.error e) := by
  constructor
  · unfold ParsedTransaction.is_valid
    cases p.action <;> cases p.amount <;>
      simp [Option.isSome_iff_ne_none] <;> tauto
  · intro hbad
    unfold insert
    by_cases h1 : uid = ""
    · rw [if_pos h1]
      exact ⟨_, rfl⟩
    rw [if_neg h1]
    by_cases h2 : cid = ""
    · rw [if_pos h2]
      exact ⟨_, rfl⟩
    rw [if_neg h2]
    by_cases h3 : mid = ""
    · rw [if_pos h3]
      exact ⟨_, rfl⟩
    rw [if_neg h3]
    by_cases h4 : (!p.is_valid) = true
    · rw [if_pos h4]
      exact ⟨_, rfl⟩
    rw [if_neg h4]
    rcases hbad with hv | hc | hc
    · exact absurd (by rw [hv]; rfl) h4
    · by_cases h5 : (match p.amount with
        | none => true
        | some a => decide (a ≤ 0)) = true
      · rw [if_pos h5]
        exact ⟨_, rfl⟩
      rw [if_neg h5, if_pos (Or.inl hc)]
      exact ⟨_, rfl⟩
    · by_cases h5 : (match p.amount with
        | none => true
        | some a => decide (a ≤ 0)) = true
      · rw [if_pos h5]
        exact ⟨_, rfl⟩
      rw [if_neg h5, if_pos (Or.inr hc)]
      exact ⟨_, rfl⟩

/-- A transfer whose source is the empty string (present but empty)
passes `is_valid` and is accepted by `insert`: the claimed rejection of
empty-string fields does not happen. -/
theorem C4_post_validation_counterexample :
    c4p.source = some "" ∧ c4p.is_valid = true ∧
    (insert emptyDB c4p "u" "c" "m" none true 0).isOk = true := by
  decide!

/-- **C5** (amended).  Scenario D as posted: with group `GoPay` and
aliases `gopay`/`go-pay` existing before the postings, both postings
store the canonical display name and accumulate into the single bucket
keyed `"GoPay"` (the merge happens at posting time). -/
theorem C5_alias_merge :
    get_user_balance_by_account c5db "u1" =
      [("GoPay", 18500), ("Income", 18500)] ∧
    (resolve_account_alias c5db "gopay" "u1").map
      (fun g => g.name) = some "GoPay" ∧
    (resolve_account_alias c5db "go-pay" "u1").map
      (fun g => g.name) = some "GoPay" := by decide!

/-- A posting made before the alias existed keeps its raw-name bucket:
after posting 100 to `go-pay`, creating `GoPay` with alias `go-pay`, and
posting 16000 to `gopay`, both names resolve to `GoPay`, yet the
balances stay split between `go-pay` and `GoPay`: the report does not
merge aliases. -/
theorem C5_alias_merge_counterexample :
    get_user_balance_by_account c5xdb "u1" =
      [("go-pay", 100), ("Income", 16100), ("GoPay", 16000)] ∧
    (resolve_account_alias c5xdb "go-pay" "u1").map
      (fun g => g.name) = some "GoPay" ∧
    (resolve_account_alias c5xdb "gopay" "u1").map
      (fun g => g.name) = some "GoPay" := by decide!

/-- **C6** (amended).  Each revenue line of the income statement is the
sum of the account's credit entries alone (those joined to a revenue
group of the owner; debits are not subtracted), each expense line the
sum of its debit entries alone, and `net_income` equals `total_revenue -
total_expenses`. -/
theorem C6_income_statement (db : DB) (u : String) (sd ed : Option Nat) :
    (get_income_statement db u sd ed).net_income =
      (get_income_statement db u sd ed).total_revenue -
        (get_income_statement db u sd ed).total_expenses ∧
    (∀ j ∈ rev_rows db u sd ed, j.entry_type = EntryType.credit) ∧
    (∀ j ∈ exp_rows db u sd ed, j.entry_type = EntryType.debit) ∧
    (∀ nv ∈ (get_income_statement db u sd ed).revenue,
      nv.2 = sum_amounts ((rev_rows db u sd ed).filter
        (fun j => j.account_name == nv.1))) ∧
    (∀ nv ∈ (get_income_statement db u sd ed).expenses,
      nv.2 = sum_amounts ((exp_rows db u sd ed).filter
        (fun j => j.account_name == nv.1))) := by
  refine ⟨rfl, ?_, ?_, ?_, ?_⟩
  · intro j hj
    have h := (List.mem_filter.mp hj).2
    simp only [Bool.and_eq_true, beq_iff_eq] at h
    exact h.1.1
  · intro j hj
    have h := (List.mem_filter.mp hj).2
    simp only [Bool.and_eq_true, beq_iff_eq] at h
    exact h.1.1
  · intro nv hnv
    rw [income_statement_expand] at hnv
    obtain ⟨n, hn, rfl⟩ := List.mem_map.mp hnv
    rfl
  · intro nv hnv
    rw [income_statement_expand] at hnv
    obtain ⟨n, hn, rfl⟩ := List.mem_map.mp hnv
    rfl

/-- An incoming posting of 100 to the system alias `income` writes both
a debit and a credit against `Income`, yet the income statement reports
revenue 100 for `Income`: the code sums only the credit entries, not
credits minus debits (which would be 0 here). -/
theorem C6_income_statement_counterexample :
    (get_income_statement c6db "u1" none none).revenue =
      [("Income", 100)] ∧
    (get_income_statement c6db "u1" none none).total_revenue = 100 ∧
    credit_total (user_journal_rows c6db "u1") "Income" -
      debit_total (user_journal_rows c6db "u1") "Income" = 0 ∧
    debit_total (user_journal_rows c6db "u1") "Income" = 100 := by
  decide!

/-- **C7.** Alias resolution is case-insensitive and
whitespace-trimmed: after a successful `addAlias(a, g, owner)` (against
a store whose group ids are unambiguous), every variant `v` of `a` with
the same trimmed lower-casing resolves to `g`. -/
theorem C7_alias_resolution {db : DB} {a : String} {g : AccountGroupRow}
    {u : String} {r : AccountAliasRow} {db' : DB}
    (hg : g ∈ db.account_groups)
    (hnd : (db.account_groups.map (fun x => x.id)).Nodup)
    (h : add_account_alias db a g.id u = .ok (r, db'))
    (v : String) (hv : stripLower v = stripLower a) :
    resolve_account_alias db' v u = some g := by
  unfold add_account_alias at h
  by_cases ha0 : pyStrip a = ""
  · rw [if_pos ha0] at h
    cases h
  rw [if_neg ha0] at h
  by_cases hu0 : u = ""
  · rw [if_pos hu0] at h
    cases h
  rw [if_neg hu0] at h
  split at h
  · cases h
  have hv0 : ¬ v = "" := by
    intro hcontra
    apply stripLower_ne_empty ha0
    rw [← hv, hcontra]
    rfl
  split at h
  · -- the alias already exists
    rename_i existing hfind
    split at h
    · -- and maps to the same group: idempotent success on the same store
      rename_i hgid
      cases h
      unfold resolve_account_alias
      rw [if_neg hv0, hv, hfind]
      dsimp only
      have hgid2 : existing.group_id = g.id := by simpa using hgid
      rw [hgid2]
      exact find?_key_of_nodup (fun x => x.id) db.account_groups g hg hnd
    · cases h
  · -- fresh alias: the row is appended
    rename_i hfind
    cases h
    unfold resolve_account_alias
    rw [if_neg hv0, hv]
    dsimp only
    rw [find?_append_none _ hfind]
    have hrow : ([({
          id := db.next_id, aliasStr := stripLower a,
          group_id := g.id, user_id := u } : AccountAliasRow)].find?
        (fun x => x.aliasStr == stripLower a && x.user_id == u)) =
        some {
          id := db.next_id, aliasStr := stripLower a,
          group_id := g.id, user_id := u } := by
      simp [List.find?_cons]
    rw [hrow]
    dsimp only
    exact find?_key_of_nodup (fun x => x.id) db.account_groups g hg hnd

/-- After `addAlias "main pocket"` on the group `Main`, the variant
`" MAIN POCKET "` resolves to `Main`. -/
theorem C7_alias_resolution_witness :
    c7g ∈ c7db.account_groups ∧
    (c7db.account_groups.map (fun x => x.id)).Nodup ∧
    add_account_alias c7db "main pocket" c7g.id "u1" =
      .ok (c7row, c7db2) ∧
    stripLower " MAIN POCKET " = stripLower "main pocket" ∧
    resolve_account_alias c7db2 " MAIN POCKET " "u1" = some c7g :=
  ⟨by decide!, by decide!, by decide!, by decide!,
   @C7_alias_resolution c7db "main pocket" c7g "u1" c7row c7db2
     (by decide!) (by decide!) (by decide!) " MAIN POCKET "
     (by decide!)⟩

/-- **C8.** `addAlias` fails when the target group does not exist for
the owner; it fails when the normalized alias already maps to a
different group, in which case the alias still resolves through its
original row and nothing was written (the call returns no new state);
and it succeeds idempotently — returning the existing mapping and the
unchanged store — when the alias already maps to the same group. -/
theorem C8_add_alias (db : DB) (a : String) (gid : Nat) (u : String) :
    ((db.account_groups.any (fun g => g.id == gid && g.user_id == u)) =
        false → pyStrip a ≠ "" → u ≠ "" →
      ∃ e, add_account_alias db a gid u = .error e) ∧
    (∀ existing, a ≠ "" →
      db.account_aliases.find? (fun x =>
        x.aliasStr == stripLower a && x.user_id == u) = some existing →
      (existing.group_id == gid) = false →
      (∃ e, add_account_alias db a gid u = .error e) ∧
      resolve_account_alias db a u =
        db.account_groups.find? (fun g => g.id == existing.group_id)) ∧
    (∀ existing, pyStrip a ≠ "" → u ≠ "" →
      (db.account_groups.any (fun g => g.id == gid && g.user_id == u)) =
        true →
      db.account_aliases.find? (fun x =>
        x.aliasStr == stripLower a && x.user_id == u) = some existing →
      (existing.group_id == gid) = true →
      add_account_alias db a gid u =
        .ok ({ id := existing.id, aliasStr := stripLower a,
               group_id := gid, user_id := u }, db)) := by
  refine ⟨?_, ?_, ?_⟩
  · intro hany ha hu
    unfold add_account_alias
    rw [if_neg ha, if_neg hu, if_pos (by rw [hany]; rfl)]
    exact ⟨_, rfl⟩
  · intro existing ha hfind hgid
    constructor
    · unfold add_account_alias
      by_cases h1 : pyStrip a = ""
      · rw [if_pos h1]
        exact ⟨_, rfl⟩
      rw [if_neg h1]
      by_cases h2 : u = ""
      · rw [if_pos h2]
        exact ⟨_, rfl⟩
      rw [if_neg h2]
      by_cases h3 : (!(db.account_groups.any
          (fun g => g.id == gid && g.user_id == u))) = true
      · rw [if_pos h3]
        exact ⟨_, rfl⟩
      rw [if_neg h3, hfind]
      dsimp only
      rw [if_neg (by rw [hgid]; exact Bool.false_ne_true)]
      exact ⟨_, rfl⟩
    · unfold resolve_account_alias
      rw [if_neg ha, hfind]
  · intro existing ha hu hany hfind hgid
    unfold add_account_alias
    rw [if_neg ha, if_neg hu,
      if_neg (by rw [hany]; exact Bool.false_ne_true), hfind]
    dsimp only
    rw [if_pos hgid]

/-- **C9** (amended).  A successful post creates no account group and
no alias beyond the idempotent system bootstrap (`Income`, `Expense`,
`Cash` and their lower-case aliases), and the two journal entries store
the resolved group's canonical name when the derived side name resolves
— and otherwise the raw derived name exactly as produced by the action's
`or`-fallbacks, with no trimming or lower-casing. -/
theorem C9_raw_name {db : DB} {parsed : ParsedTransaction}
    {uid cid mid : String} {gid : Option String} {conf : Bool}
    {now : Nat} {le : LedgerRow} {db' : DB} (hInv : Inv db)
    (h : insert db parsed uid cid mid gid conf now = .ok (le, db')) :
    (∀ g ∈ db'.account_groups,
      g ∈ db.account_groups ∨ g.is_system = true) ∧
    (∀ al ∈ db'.account_aliases, al ∈ db.account_aliases ∨
      al.aliasStr = "income" ∨ al.aliasStr = "expense" ∨
      al.aliasStr = "cash") ∧
    (∃ dj cj, db'.journal_entries = db.journal_entries ++ [dj, cj] ∧
      dj.account_name = (match resolve_account_alias db'
          (derive_sides parsed).1 uid with
        | some g => g.name
        | none => (derive_sides parsed).1) ∧
      cj.account_name = (match resolve_account_alias db'
          (derive_sides parsed).2.1 uid with
        | some g => g.name
        | none => (derive_sides parsed).2.1)) := by
  unfold insert at h
  by_cases hu : uid = ""
  · rw [if_pos hu] at h
    cases h
  rw [if_neg hu] at h
  split at h
  · cases h
  split at h
  · cases h
  split at h
  · cases h
  split at h
  · cases h
  split at h
  · cases h
  obtain ⟨msys, db1, hens, hT1, hJ1, hL1, hN1, ⟨acc1, hA1⟩, hcase⟩ :=
    ensure_spec db uid hu (hInv.sys uid)
  rw [hens] at h
  dsimp only at h
  revert h
  generalize hds : derive_sides parsed = ds
  obtain ⟨dn, cn, dt, ct⟩ := ds
  intro h
  dsimp only at h
  split at h
  · cases h
  rename_i debit_account db2 hga
  split at h
  · cases h
  rename_i credit_account db3 hgc
  obtain ⟨hG2, hA2, -, hJ2, -, -, -⟩ := get_or_create_ok hga
  obtain ⟨hG3, hA3, -, hJ3, -, -, -⟩ := get_or_create_ok hgc
  have hG : db3.account_groups = db1.account_groups := by rw [hG3, hG2]
  have hA : db3.account_aliases = db1.account_aliases := by rw [hA3, hA2]
  have hJ : db3.journal_entries = db.journal_entries := by
    rw [hJ3, hJ2, hJ1]
  injection h with hpair
  injection hpair with hle hdb
  have hG' : db'.account_groups = db1.account_groups := by
    rw [← hdb]
    exact hG
  have hA' : db'.account_aliases = db1.account_aliases := by
    rw [← hdb]
    exact hA
  refine ⟨?_, ?_, ?_⟩
  · intro g hg
    rw [hG'] at hg
    rcases hcase with ⟨hfull, hGe, hAe⟩ | ⟨hempty, hGe, hAe, hN6⟩
    · rw [hGe] at hg
      exact Or.inl hg
    · rw [hGe] at hg
      rcases List.mem_append.mp hg with h0 | h0
      · exact Or.inl h0
      · right
        simp only [List.mem_cons, List.not_mem_nil, or_false] at h0
        rcases h0 with rfl | rfl | rfl
        · rfl
        · rfl
        · rfl
  · intro al hal
    rw [hA'] at hal
    rcases hcase with ⟨hfull, hGe, hAe⟩ | ⟨hempty, hGe, hAe, hN6⟩
    · rw [hAe] at hal
      exact Or.inl hal
    · rw [hAe] at hal
      rcases List.mem_append.mp hal with h0 | h0
      · exact Or.inl h0
      · simp only [List.mem_cons, List.not_mem_nil, or_false] at h0
        rcases h0 with rfl | rfl | rfl
        · exact Or.inr (Or.inl rfl)
        · exact Or.inr (Or.inr (Or.inl rfl))
        · exact Or.inr (Or.inr (Or.inr rfl))
  · refine ⟨{
      id := db3.next_id + 1, transaction_id := db3.next_id,
      account_id := (match resolve_account_alias db1 dn uid with
        | some g => g.id
        | none => debit_account.id),
      account_name := (match resolve_account_alias db1 dn uid with
        | some g => g.name
        | none => dn),
      entry_type := EntryType.debit,
      amount := parsed.amount.getD 0 }, {
      id := db3.next_id + 2, transaction_id := db3.next_id,
      account_id := (match resolve_account_alias db1 cn uid with
        | some g => g.id
        | none => credit_account.id),
      account_name := (match resolve_account_alias db1 cn uid with
        | some g => g.name
        | none => cn),
      entry_type := EntryType.credit,
      amount := parsed.amount.getD 0 }, ?_, ?_, ?_⟩
    · rw [← hdb]
      dsimp only
      rw [hJ]
    · rw [resolve_account_alias_congr db1 db' hA' hG' dn uid]
    · rw [resolve_account_alias_congr db1 db' hA' hG' cn uid]

/-- Posting to the unresolvable name `" MyBank "` keeps it verbatim in
the journal (untrimmed, original case) while creating no group or alias
for it. -/
theorem C9_raw_name_witness :
    insert emptyDB c9p "u" "c" "m" none true 0 = .ok (c9le, c9db) ∧
    ((∀ g ∈ c9db.account_groups,
        g ∈ emptyDB.account_groups ∨ g.is_system = true) ∧
     (∀ al ∈ c9db.account_aliases, al ∈ emptyDB.account_aliases ∨
        al.aliasStr = "income" ∨ al.aliasStr = "expense" ∨
        al.aliasStr = "cash") ∧
     (∃ dj cj, c9db.journal_entries =
        emptyDB.journal_entries ++ [dj, cj] ∧
      dj.account_name = (match resolve_account_alias c9db
          (derive_sides c9p).1 "u" with
        | some g => g.name
        | none => (derive_sides c9p).1) ∧
      cj.account_name = (match resolve_account_alias c9db
          (derive_sides c9p).2.1 "u" with
        | some g => g.name
        | none => (derive_sides c9p).2.1))) :=
  ⟨by decide!, @C9_raw_name emptyDB c9p "u" "c" "m" none true 0 c9le
    c9db inv_empty (by decide!)⟩

/-- The journal of the `" MyBank "` posting stores the name verbatim (no
trim, no lower-casing), while the trimmed lower-cased `mybank` appears
only in the legacy accounts table and no group or alias exists for
either spelling. -/
theorem C9_raw_name_counterexample :
    c9db.journal_entries.map (fun j => j.account_name) =
      [" MyBank ", "Income"] ∧
    stripLower " MyBank " = "mybank" ∧
    (c9db.account_groups.map (fun g => g.name)).contains " MyBank " =
      false ∧
    (c9db.account_groups.map (fun g => g.name)).contains "mybank" =
      false ∧
    (c9db.accounts.map (fun a => a.name)).contains "mybank" = true := by
  decide!

/-- **C10.** `update_transaction` called with a supplied amount that is
zero or negative raises the invalid-amount error before any lookup: the
error is returned for every store and transaction id, so nothing is read
or written. -/
theorem C10_update_amount_guard (db : DB) (tid : Nat) (u : String)
    (a : Rat) (ns nd nde : Option String)
    (htid : tid ≠ 0) (hu : u ≠ "") (ha : a ≤ 0) :
    update_transaction db tid u (some a) ns nd nde =
      .error "Amount must be positive" := by
  unfold update_transaction
  have hc : (match (some a : Option Rat) with
      | some x => decide (x ≤ 0)
      | none => false) = true := by
    dsimp only
    exact decide_eq_true ha
  rw [if_neg htid, if_neg hu, if_pos hc]

/-- Updating transaction 1 with amount 0 on the empty store raises the
invalid-amount error. -/
theorem C10_update_amount_guard_witness :
    (1 : Nat) ≠ 0 ∧ ("u" : String) ≠ "" ∧ ((0 : Rat) ≤ 0) ∧
    update_transaction emptyDB 1 "u" (some 0) none none none =
      .error "Amount must be positive" :=
  ⟨by decide, by decide, by decide!,
   C10_update_amount_guard emptyDB 1 "u" 0 none none none
     (by decide) (by decide) (by decide!)⟩

end Yuuka
